import Mathlib

/-!
Verification of the `profundum` dive-log computation core.

This file gives a shallow embedding, in Lean 4, of the parts of the
repository that the specification claims talk about:

* the formula expression engine (`src/core/src/formula/{ast,evaluator,parser}.rs`),
* the Bühlmann ZHL-16C tissue simulation (`src/core/src/buhlmann.rs`),
* the dive statistics aggregator (`src/core/src/metrics.rs`).

Modelling conventions:

* Rust `f64`/`f32` values are modelled as exact rationals (`ℚ`).  All the
  arithmetic the verified claims exercise (`+`, `-`, `*`, `/`, comparisons,
  `abs`, `min`, `max`, `floor`, `ceil`) is exact on the concrete inputs used,
  so the rational model agrees with IEEE-754 on them.  `f64::EPSILON` is the
  exact dyadic rational 2⁻⁵².
* The transcendental functions used by the tissue simulation (`exp`, `ln 2`)
  are taken as parameters of the model (`expF : ℚ → ℚ`, `ln2 : ℚ`); every
  theorem about the simulation that depends on them holds for all choices,
  which is exactly the structural content of the claims being checked.
* Rust `Result` is modelled by `Except`, `Option` by `Option`; fallible code
  never panics in the modelled fragment.
* Strings are modelled as `List Char`; positions are character offsets, which
  coincide with Rust byte offsets on ASCII input (all concrete inputs used
  here are ASCII).
-/

set_option linter.unusedVariables false
set_option maxRecDepth 16000

namespace Profundum

/-! ## Formula engine: error type (src/core/src/error.rs) -/

/-- `FormulaError` from `src/core/src/error.rs`. -/
inductive FormulaError where
  | parseError (pos : Nat) (msg : String)
  | unknownVariable (name : String)
  | unknownFunction (name : String)
  | typeError (detail : String)
  | divisionByZero
  | invalidArgCount (function : String) (expected : Nat) (got : Nat)
  | emptyExpression
deriving DecidableEq, Repr

/-! ## Formula engine: AST (src/core/src/formula/ast.rs) -/

/-- `BinaryOp` from `src/core/src/formula/ast.rs`. -/
inductive BinaryOp where
  | add | sub | mul | div
  | gt | lt | gte | lte | eq | neq
  | and | or
deriving DecidableEq, Repr

/-- `UnaryOp` from `src/core/src/formula/ast.rs`. -/
inductive UnaryOp where
  | neg | not
deriving DecidableEq, Repr

/-- `Expr` from `src/core/src/formula/ast.rs`.  The Rust `Variable`
constructor is called `var` here because `variable` is a Lean keyword. -/
inductive Expr where
  | number (n : ℚ)
  | boolean (b : Bool)
  | var (name : String)
  | binary (op : BinaryOp) (left : Expr) (right : Expr)
  | unary (op : UnaryOp) (expr : Expr)
  | functionCall (name : String) (args : List Expr)
  | ternary (condition : Expr) (then_expr : Expr) (else_expr : Expr)
deriving Repr

/-! ## Formula engine: evaluator (src/core/src/formula/evaluator.rs) -/

/-- `Value` from `src/core/src/formula/evaluator.rs`. -/
inductive Value where
  | number (n : ℚ)
  | boolean (b : Bool)
deriving DecidableEq, Repr

/-- `Value::as_number`.  The Rust function returns `Result` but never
errors; it is modelled as the total coercion it implements. -/
def Value.as_number : Value → ℚ
  | .number n => n
  | .boolean b => if b then 1 else 0

/-- `Value::as_bool`.  Total for the same reason as `as_number`. -/
def Value.as_bool : Value → Bool
  | .boolean b => b
  | .number n => decide (n ≠ 0)

/-- `Value::is_truthy`. -/
def Value.is_truthy : Value → Bool
  | .boolean b => b
  | .number n => decide (n ≠ 0)

/-- `f64::EPSILON` = 2⁻⁵², as an exact rational. -/
def f64_epsilon : ℚ := 1 / 2 ^ 52

/-- `evaluate_binary` from `src/core/src/formula/evaluator.rs`.  Note that
`Eq`/`Neq` compare `(l - r).abs()` against `f64::EPSILON`, and `Div` checks
`r == 0.0` before dividing. -/
def evaluate_binary (op : BinaryOp) (left right : Value) : Except FormulaError Value :=
  match op with
  | .add => .ok (.number (left.as_number + right.as_number))
  | .sub => .ok (.number (left.as_number - right.as_number))
  | .mul => .ok (.number (left.as_number * right.as_number))
  | .div =>
      let l := left.as_number
      let r := right.as_number
      if r = 0 then .error .divisionByZero else .ok (.number (l / r))
  | .gt => .ok (.boolean (decide (left.as_number > right.as_number)))
  | .lt => .ok (.boolean (decide (left.as_number < right.as_number)))
  | .gte => .ok (.boolean (decide (left.as_number ≥ right.as_number)))
  | .lte => .ok (.boolean (decide (left.as_number ≤ right.as_number)))
  | .eq => .ok (.boolean (decide (|left.as_number - right.as_number| < f64_epsilon)))
  | .neq => .ok (.boolean (decide (|left.as_number - right.as_number| ≥ f64_epsilon)))
  | .and => .ok (.boolean (left.as_bool && right.as_bool))
  | .or => .ok (.boolean (left.as_bool || right.as_bool))

/-- `evaluate_unary` from `src/core/src/formula/evaluator.rs`. -/
def evaluate_unary (op : UnaryOp) (val : Value) : Except FormulaError Value :=
  match op with
  | .neg => .ok (.number (-val.as_number))
  | .not => .ok (.boolean (!val.as_bool))

/-- ASCII lowering of one character.  Models Rust `char::to_lowercase` on the
ASCII range (identifier characters are ASCII: `[A-Za-z0-9_]`). -/
def lowerChar (c : Char) : Char :=
  if 65 ≤ c.toNat ∧ c.toNat ≤ 90 then Char.ofNat (c.toNat + 32) else c

/-- Models Rust `str::to_lowercase` on ASCII strings. -/
def lowerString (s : String) : String := String.mk (s.data.map lowerChar)

/-- `evaluate_function` from `src/core/src/formula/evaluator.rs`.  Function
name matching is case-insensitive (`to_lowercase`).  Each built-in checks its
exact arity first and otherwise returns `InvalidArgCount`.  `f64::sqrt` is
modelled by `Rat.sqrt` (no verified claim depends on `sqrt`'s value); the
`round` builtin's `as i32` truncation is modelled by `Rat.floor` on the
scaled value composed with rounding, matching exact inputs. -/
def evaluate_function (name : String) (args : List Value) : Except FormulaError Value :=
  match lowerString name with
  | "min" =>
      match args with
      | [a, b] => .ok (.number (min a.as_number b.as_number))
      | _ => .error (.invalidArgCount "min" 2 args.length)
  | "max" =>
      match args with
      | [a, b] => .ok (.number (max a.as_number b.as_number))
      | _ => .error (.invalidArgCount "max" 2 args.length)
  | "round" =>
      match args with
      | [x, nd] =>
          let decimals : ℤ := (nd.as_number).floor
          let factor : ℚ := (10 : ℚ) ^ decimals
          .ok (.number ((round (x.as_number * factor) : ℤ) / factor))
      | _ => .error (.invalidArgCount "round" 2 args.length)
  | "abs" =>
      match args with
      | [x] => .ok (.number |x.as_number|)
      | _ => .error (.invalidArgCount "abs" 1 args.length)
  | "sqrt" =>
      match args with
      | [x] => .ok (.number (Rat.sqrt x.as_number))
      | _ => .error (.invalidArgCount "sqrt" 1 args.length)
  | "floor" =>
      match args with
      | [x] => .ok (.number ((x.as_number).floor : ℤ))
      | _ => .error (.invalidArgCount "floor" 1 args.length)
  | "ceil" =>
      match args with
      | [x] => .ok (.number ((x.as_number).ceil : ℤ))
      | _ => .error (.invalidArgCount "ceil" 1 args.length)
  | "if" =>
      match args with
      | [c, a, b] => if c.as_bool then .ok a else .ok b
      | _ => .error (.invalidArgCount "if" 3 args.length)
  | _ => .error (.unknownFunction name)

/-- The variable lookup capability (`VariableProvider` trait): any function
from names to optional numbers. -/
def VarProvider : Type := String → Option ℚ

mutual

/-- `evaluate` from `src/core/src/formula/evaluator.rs`.  Binary operands and
function arguments are evaluated eagerly, left to right, short-circuiting on
the first error (the Rust `collect::<Result<...>>`); the ternary evaluates
only the branch selected by the condition. -/
def evaluate (vars : VarProvider) : Expr → Except FormulaError Value
  | .number n => .ok (.number n)
  | .boolean b => .ok (.boolean b)
  | .var name =>
      match vars name with
      | some v => .ok (.number v)
      | none => .error (.unknownVariable name)
  | .binary op left right => do
      let lv ← evaluate vars left
      let rv ← evaluate vars right
      evaluate_binary op lv rv
  | .unary op e => do
      let v ← evaluate vars e
      evaluate_unary op v
  | .functionCall name args => do
      let vs ← evaluateArgs vars args
      evaluate_function name vs
  | .ternary condition then_expr else_expr => do
      let c ← evaluate vars condition
      if c.is_truthy then evaluate vars then_expr else evaluate vars else_expr

/-- Left-to-right evaluation of a function call's argument list,
short-circuiting at the first error (`args.iter().map(...).collect()`). -/
def evaluateArgs (vars : VarProvider) : List Expr → Except FormulaError (List Value)
  | [] => .ok []
  | a :: rest => do
      let v ← evaluate vars a
      let vs ← evaluateArgs vars rest
      .ok (v :: vs)

end

/-- The empty variable lookup (no name resolves). -/
def noVars : VarProvider := fun _ => none

/-! ## Formula engine: parser (src/core/src/formula/parser.rs)

The Rust parser is written with `nom` combinators over `&str`.  It is
modelled here over `List Char`, with character offsets standing for byte
offsets (identical on ASCII input).  `nom`'s recoverable `Err::Error` and
unrecoverable `Err::Failure` are modelled by the `err` and `fail`
constructors of `PResult`; the only `Failure` source in this grammar is the
`cut(digit1)` inside `recognize_float`'s exponent.  Recursion is by
explicit fuel (decremented at every call between parser functions); the
top-level entry point supplies more fuel than the grammar can consume for
its input, so the out-of-fuel branches are unreachable. -/

/-- The whitespace set of `nom::character::complete::multispace0`:
space, tab, newline, carriage return. -/
def isMultispace (c : Char) : Bool :=
  c = ' ' || c = '\t' || c = '\n' || c = '\r'

/-- The whitespace set of Rust `str::trim` (`char::is_whitespace`),
restricted to its ASCII members. -/
def isRustWhitespace (c : Char) : Bool :=
  isMultispace c || c = '\x0b' || c = '\x0c'

/-- Remove trailing characters satisfying `p`. -/
def dropTrailing (p : Char → Bool) (s : List Char) : List Char :=
  (s.reverse.dropWhile p).reverse

/-- Rust `str::trim`: remove leading and trailing whitespace. -/
def rustTrim (s : List Char) : List Char :=
  dropTrailing isRustWhitespace (s.dropWhile isRustWhitespace)

/-- Result of a `nom`-style sub-parser: success with the remaining input,
recoverable error (`nom::Err::Error`), or unrecoverable failure
(`nom::Err::Failure`). -/
inductive PResult (α : Type) where
  | ok (rest : List Char) (val : α)
  | err
  | fail

/-- Sequence two parse steps, propagating both kinds of error
(the Rust `?` operator on `IResult`). -/
def PResult.andThen : PResult α → (List Char → α → PResult β) → PResult β
  | .ok r v, f => f r v
  | .err, _ => .err
  | .fail, _ => .fail

/-- `nom::character::complete::multispace0` (always succeeds). -/
def multispace0 (s : List Char) : List Char := s.dropWhile isMultispace

/-- `nom::character::complete::char`. -/
def pchar (c : Char) : List Char → PResult Unit
  | x :: xs => if x = c then .ok xs () else .err
  | [] => .err

/-- `nom::bytes::complete::tag`. -/
def ptag : List Char → List Char → PResult Unit
  | [], s => .ok s ()
  | c :: cs, x :: xs => if x = c then ptag cs xs else .err
  | _ :: _, [] => .err

/-- `nom::bytes::complete::tag_no_case` (ASCII case folding). -/
def ptagNoCase : List Char → List Char → PResult Unit
  | [], s => .ok s ()
  | c :: cs, x :: xs => if lowerChar x = lowerChar c then ptagNoCase cs xs else .err
  | _ :: _, [] => .err

/-- `nom::bytes::complete::take_while1`: the longest non-empty prefix of
characters satisfying `p`, returned together with the rest. -/
def takeWhile1 (p : Char → Bool) (s : List Char) : PResult (List Char) :=
  if s.takeWhile p = [] then .err else .ok (s.dropWhile p) (s.takeWhile p)

/-- Optional `+`/`-` sign (`opt(alt((char('+'), char('-'))))`):
`(rest, consumed)`. -/
def matchSign : List Char → List Char × List Char
  | c :: rest => if c = '+' ∨ c = '-' then (rest, [c]) else (c :: rest, [])
  | [] => ([], [])

/-- The mantissa alternative of `nom`'s `recognize_float`:
`digit1 ('.' digit1?)? | '.' digit1`; returns `(rest, consumed)`. -/
def floatMantissa (s : List Char) : PResult (List Char) :=
  match takeWhile1 Char.isDigit s with
  | .ok s1 d =>
      match s1 with
      | c :: s2 =>
          if c = '.' then
            .ok (s2.dropWhile Char.isDigit) (d ++ c :: s2.takeWhile Char.isDigit)
          else .ok s1 d
      | [] => .ok s1 d
  | _ =>
      match s with
      | c :: s1 =>
          if c = '.' then
            match takeWhile1 Char.isDigit s1 with
            | .ok s2 d => .ok s2 (c :: d)
            | _ => .err
          else .err
      | [] => .err

/-- The optional exponent of `nom`'s `recognize_float`:
`(e|E) sign? cut(digit1)`.  Because of the `cut`, an `e`/`E` not followed
by digits is an unrecoverable failure. -/
def floatExponent (s : List Char) : PResult (List Char) :=
  match s with
  | c :: s1 =>
      if c = 'e' ∨ c = 'E' then
        match takeWhile1 Char.isDigit (matchSign s1).1 with
        | .ok s3 d => .ok s3 (c :: ((matchSign s1).2 ++ d))
        | _ => .fail
      else .ok s []
  | [] => .ok s []

/-- `nom::number::complete::recognize_float`: returns the consumed text. -/
def recognizeFloat (s : List Char) : PResult (List Char) :=
  match floatMantissa (matchSign s).1 with
  | .ok s2 m =>
      match floatExponent s2 with
      | .ok s3 e => .ok s3 ((matchSign s).2 ++ m ++ e)
      | .err => .err
      | .fail => .fail
  | _ => .err

/-- Identifier start characters (`is_alphabetic() || '_'`; ASCII model). -/
def isIdentStart (c : Char) : Bool := c.isAlpha || c = '_'

/-- Identifier continuation characters (`is_alphanumeric() || '_'`). -/
def isIdentCont (c : Char) : Bool := c.isAlphanum || c = '_'

/-- The identifier recognizer shared by `parse_variable` and
`parse_function_call`:
`recognize(pair(take_while1(start), opt(take_while1(cont))))`. -/
def identifier (s : List Char) : PResult (List Char) :=
  match takeWhile1 isIdentStart s with
  | .ok s1 a =>
      match takeWhile1 isIdentCont s1 with
      | .ok s2 b => .ok s2 (a ++ b)
      | _ => .ok s1 a
  | _ => .err

/-- Value of a decimal digit string. -/
def digitsToNat (ds : List Char) : ℕ :=
  ds.foldl (fun n c => 10 * n + (c.toNat - 48)) 0

/-- The value of a string recognized by `recognize_float`, as an exact
rational.  Models `s.parse::<f64>().unwrap_or(0.0)`; the rational value is
the exact decimal, without the final IEEE-754 rounding step (no verified
claim depends on a rounded literal). -/
def ratOfFloatChars (cs : List Char) : ℚ :=
  let (sgn, cs1) : ℚ × List Char :=
    match cs with
    | '-' :: rest => (-1, rest)
    | '+' :: rest => (1, rest)
    | _ => (1, cs)
  let intPart := cs1.takeWhile Char.isDigit
  let cs2 := cs1.dropWhile Char.isDigit
  let (fracPart, cs3) :=
    match cs2 with
    | '.' :: rest => (rest.takeWhile Char.isDigit, rest.dropWhile Char.isDigit)
    | _ => (([] : List Char), cs2)
  let expVal : ℤ :=
    match cs3 with
    | e :: rest =>
        if e = 'e' ∨ e = 'E' then
          match rest with
          | '-' :: r2 => -(digitsToNat (r2.takeWhile Char.isDigit) : ℤ)
          | '+' :: r2 => (digitsToNat (r2.takeWhile Char.isDigit) : ℤ)
          | _ => (digitsToNat (rest.takeWhile Char.isDigit) : ℤ)
        else 0
    | [] => 0
  let mantissa : ℚ :=
    (digitsToNat intPart : ℚ) + (digitsToNat fracPart : ℚ) / 10 ^ fracPart.length
  sgn * mantissa * (10 : ℚ) ^ expVal

/-- `parse_or_op`: `ws(value(BinaryOp::Or, tag_no_case("or")))`. -/
def parse_or_op (s : List Char) : PResult BinaryOp :=
  match ptagNoCase ['o', 'r'] (multispace0 s) with
  | .ok r _ => .ok (multispace0 r) BinaryOp.or
  | .err => .err
  | .fail => .fail

/-- `parse_and_op`: `ws(value(BinaryOp::And, tag_no_case("and")))`. -/
def parse_and_op (s : List Char) : PResult BinaryOp :=
  match ptagNoCase ['a', 'n', 'd'] (multispace0 s) with
  | .ok r _ => .ok (multispace0 r) BinaryOp.and
  | .err => .err
  | .fail => .fail

/-- `parse_comparison_op`: `ws(alt((">=", "<=", "==", "!=", ">", "<")))`,
tried in that order. -/
def parse_comparison_op (s : List Char) : PResult BinaryOp :=
  let s1 := multispace0 s
  match ptag ['>', '='] s1 with
  | .ok r _ => .ok (multispace0 r) BinaryOp.gte
  | _ =>
  match ptag ['<', '='] s1 with
  | .ok r _ => .ok (multispace0 r) BinaryOp.lte
  | _ =>
  match ptag ['=', '='] s1 with
  | .ok r _ => .ok (multispace0 r) BinaryOp.eq
  | _ =>
  match ptag ['!', '='] s1 with
  | .ok r _ => .ok (multispace0 r) BinaryOp.neq
  | _ =>
  match pchar '>' s1 with
  | .ok r _ => .ok (multispace0 r) BinaryOp.gt
  | _ =>
  match pchar '<' s1 with
  | .ok r _ => .ok (multispace0 r) BinaryOp.lt
  | _ => .err

/-- `parse_additive_op`: `ws(alt(('+', '-')))`. -/
def parse_additive_op (s : List Char) : PResult BinaryOp :=
  let s1 := multispace0 s
  match pchar '+' s1 with
  | .ok r _ => .ok (multispace0 r) BinaryOp.add
  | _ =>
  match pchar '-' s1 with
  | .ok r _ => .ok (multispace0 r) BinaryOp.sub
  | _ => .err

/-- `parse_multiplicative_op`: `ws(alt(('*', '/')))`. -/
def parse_multiplicative_op (s : List Char) : PResult BinaryOp :=
  let s1 := multispace0 s
  match pchar '*' s1 with
  | .ok r _ => .ok (multispace0 r) BinaryOp.mul
  | _ =>
  match pchar '/' s1 with
  | .ok r _ => .ok (multispace0 r) BinaryOp.div
  | _ => .err

/-- `parse_boolean`: `alt((tag_no_case("true"), tag_no_case("false")))`. -/
def parse_boolean (s : List Char) : PResult Expr :=
  match ptagNoCase ['t', 'r', 'u', 'e'] s with
  | .ok r _ => .ok r (Expr.boolean true)
  | _ =>
  match ptagNoCase ['f', 'a', 'l', 's', 'e'] s with
  | .ok r _ => .ok r (Expr.boolean false)
  | _ => .err

/-- `parse_number`: `map(recognize_float, ...)`. -/
def parse_number (s : List Char) : PResult Expr :=
  match recognizeFloat s with
  | .ok r tk => .ok r (Expr.number (ratOfFloatChars tk))
  | .err => .err
  | .fail => .fail

/-- `parse_variable`. -/
def parse_variable (s : List Char) : PResult Expr :=
  match identifier s with
  | .ok r name => .ok r (Expr.var (String.mk name))
  | .err => .err
  | .fail => .fail

/-- The argument separator of `parse_function_call`:
`tuple((multispace0, char(','), multispace0))`. -/
def parse_sep (s : List Char) : PResult Unit :=
  match pchar ',' (multispace0 s) with
  | .ok r _ => .ok (multispace0 r) ()
  | .err => .err
  | .fail => .fail

mutual

/-- `parse_expr` (delegates to the lowest-precedence level). -/
def parse_expr : Nat → List Char → PResult Expr
  | 0, _ => .err
  | n + 1, s => parse_ternary n s

/-- `parse_ternary`: after the condition, an optional
`? expr : expr` tail; a missing `:` is a (recoverable) error, since the
Rust code propagates the `char(':')` error with `?`. -/
def parse_ternary : Nat → List Char → PResult Expr
  | 0, _ => .err
  | n + 1, s =>
      (parse_or n s).andThen fun s1 condition =>
        match pchar '?' (multispace0 s1) with
        | .ok s3 _ =>
            (parse_expr n (multispace0 s3)).andThen fun s5 then_expr =>
              (pchar ':' (multispace0 s5)).andThen fun s7 _ =>
                (parse_expr n (multispace0 s7)).andThen fun s9 else_expr =>
                  .ok s9 (Expr.ternary condition then_expr else_expr)
        | _ => .ok (multispace0 s1) condition

/-- `parse_or`. -/
def parse_or : Nat → List Char → PResult Expr
  | 0, _ => .err
  | n + 1, s => (parse_and n s).andThen fun s1 left => parse_or_chain n s1 left

/-- The `parse_binary_chain` loop instantiated at the `or` level.  Any
error from the operator parser ends the loop (the Rust `Err(_)` arm);
errors from the operand parser propagate. -/
def parse_or_chain : Nat → List Char → Expr → PResult Expr
  | 0, s, left => .ok s left
  | n + 1, s, left =>
      match parse_or_op s with
      | .ok s1 op =>
          (parse_and n s1).andThen fun s2 right =>
            parse_or_chain n s2 (Expr.binary op left right)
      | _ => .ok s left

/-- `parse_and`. -/
def parse_and : Nat → List Char → PResult Expr
  | 0, _ => .err
  | n + 1, s => (parse_comparison n s).andThen fun s1 left => parse_and_chain n s1 left

/-- `parse_binary_chain` at the `and` level. -/
def parse_and_chain : Nat → List Char → Expr → PResult Expr
  | 0, s, left => .ok s left
  | n + 1, s, left =>
      match parse_and_op s with
      | .ok s1 op =>
          (parse_comparison n s1).andThen fun s2 right =>
            parse_and_chain n s2 (Expr.binary op left right)
      | _ => .ok s left

/-- `parse_comparison`. -/
def parse_comparison : Nat → List Char → PResult Expr
  | 0, _ => .err
  | n + 1, s => (parse_additive n s).andThen fun s1 left => parse_comparison_chain n s1 left

/-- `parse_binary_chain` at the comparison level. -/
def parse_comparison_chain : Nat → List Char → Expr → PResult Expr
  | 0, s, left => .ok s left
  | n + 1, s, left =>
      match parse_comparison_op s with
      | .ok s1 op =>
          (parse_additive n s1).andThen fun s2 right =>
            parse_comparison_chain n s2 (Expr.binary op left right)
      | _ => .ok s left

/-- `parse_additive`. -/
def parse_additive : Nat → List Char → PResult Expr
  | 0, _ => .err
  | n + 1, s => (parse_multiplicative n s).andThen fun s1 left => parse_additive_chain n s1 left

/-- `parse_binary_chain` at the additive level. -/
def parse_additive_chain : Nat → List Char → Expr → PResult Expr
  | 0, s, left => .ok s left
  | n + 1, s, left =>
      match parse_additive_op s with
      | .ok s1 op =>
          (parse_multiplicative n s1).andThen fun s2 right =>
            parse_additive_chain n s2 (Expr.binary op left right)
      | _ => .ok s left

/-- `parse_multiplicative`. -/
def parse_multiplicative : Nat → List Char → PResult Expr
  | 0, _ => .err
  | n + 1, s => (parse_unary n s).andThen fun s1 left => parse_multiplicative_chain n s1 left

/-- `parse_binary_chain` at the multiplicative level. -/
def parse_multiplicative_chain : Nat → List Char → Expr → PResult Expr
  | 0, s, left => .ok s left
  | n + 1, s, left =>
      match parse_multiplicative_op s with
      | .ok s1 op =>
          (parse_unary n s1).andThen fun s2 right =>
            parse_multiplicative_chain n s2 (Expr.binary op left right)
      | _ => .ok s left

/-- `parse_unary`: prefix `-` and `not`, right-associative, then primary. -/
def parse_unary : Nat → List Char → PResult Expr
  | 0, _ => .err
  | n + 1, s =>
      let s1 := multispace0 s
      match pchar '-' s1 with
      | .ok s2 _ =>
          (parse_unary n (multispace0 s2)).andThen fun r e =>
            .ok r (Expr.unary UnaryOp.neg e)
      | _ =>
        match ptagNoCase ['n', 'o', 't'] s1 with
        | .ok s2 _ =>
            (parse_unary n (multispace0 s2)).andThen fun r e =>
              .ok r (Expr.unary UnaryOp.not e)
        | _ => parse_primary n s1

/-- `parse_primary`: `alt` over parenthesized, boolean, function call,
number, variable — in that order, with `Failure` aborting the alternation. -/
def parse_primary : Nat → List Char → PResult Expr
  | 0, _ => .err
  | n + 1, s =>
      let s1 := multispace0 s
      match parse_parenthesized n s1 with
      | .ok r e => .ok r e
      | .fail => .fail
      | .err =>
      match parse_boolean s1 with
      | .ok r e => .ok r e
      | .fail => .fail
      | .err =>
      match parse_function_call n s1 with
      | .ok r e => .ok r e
      | .fail => .fail
      | .err =>
      match parse_number s1 with
      | .ok r e => .ok r e
      | .fail => .fail
      | .err => parse_variable s1

/-- `parse_parenthesized`:
`delimited(pair('(', multispace0), parse_expr, pair(multispace0, ')'))`. -/
def parse_parenthesized : Nat → List Char → PResult Expr
  | 0, _ => .err
  | n + 1, s =>
      (pchar '(' s).andThen fun s1 _ =>
        (parse_expr n (multispace0 s1)).andThen fun s2 e =>
          (pchar ')' (multispace0 s2)).andThen fun s3 _ =>
            .ok s3 e

/-- `parse_function_call`: identifier, `(`, comma-separated argument list,
`)`. -/
def parse_function_call : Nat → List Char → PResult Expr
  | 0, _ => .err
  | n + 1, s =>
      (identifier s).andThen fun s1 name =>
        (pchar '(' (multispace0 s1)).andThen fun s2 _ =>
          (parse_args n (multispace0 s2)).andThen fun s3 args =>
            (pchar ')' (multispace0 s3)).andThen fun s4 _ =>
              .ok s4 (Expr.functionCall (String.mk name) args)

/-- `nom::multi::separated_list0(ws-comma, parse_expr)`: the possibly-empty
argument list.  A failing first element is an empty list; afterwards the
loop body is `parse_args_loop`. -/
def parse_args : Nat → List Char → PResult (List Expr)
  | 0, _ => .err
  | n + 1, s =>
      match parse_expr n s with
      | .ok s1 e => parse_args_loop n s1 [e]
      | .err => .ok s []
      | .fail => .fail

/-- The loop of `separated_list0`: try separator then element; a
recoverable error in either ends the list (rewinding to before the
separator); `separated_list0`'s non-consuming-separator guard is kept even
though this separator always consumes the comma. -/
def parse_args_loop : Nat → List Char → List Expr → PResult (List Expr)
  | 0, s, acc => .ok s acc.reverse
  | n + 1, s, acc =>
      match parse_sep s with
      | .ok s1 _ =>
          if s1.length = s.length then .err
          else
            match parse_expr n s1 with
            | .ok s2 e => parse_args_loop n s2 (e :: acc)
            | .err => .ok s acc.reverse
            | .fail => .fail
      | .fail => .fail
      | .err => .ok s acc.reverse

end

/-- Fuel for the top-level parse: strictly more than the parser can use on
`s` (fuel is spent only by descending the finite grammar or after
consuming at least one character). -/
def parse_fuel (s : List Char) : Nat := 16 * (s.length + 2)

/-- `parse` from `src/core/src/formula/parser.rs`: trim, reject empty,
run the grammar, then reject unconsumed (non-whitespace) input with a
position relative to the trimmed text; a grammar error reports position 0
(the Rust `Err(e)` arm).  Error messages are abbreviated relative to the
Rust `format!` texts; no claim depends on them. -/
def parse (input : String) : Except FormulaError Expr :=
  let t := rustTrim input.toList
  if t.isEmpty then .error .emptyExpression
  else
    match parse_expr (parse_fuel t) t with
    | .ok rem e =>
        let rem2 := rustTrim rem
        if rem2.isEmpty then .ok e
        else
          .error (.parseError (t.length - rem2.length)
            ("unexpected characters: " ++ String.mk rem2))
    | _ => .error (.parseError 0 "parse error")

/-- The position carried by a `ParseError` result, if any. -/
def parse_error_position : Except FormulaError Expr → Option Nat
  | .error (.parseError pos _) => some pos
  | _ => none

/-! ## Dive data model (src/core/src/metrics.rs) -/

/-- `SampleInput` from `src/core/src/metrics.rs` (`f32` fields as ℚ). -/
structure SampleInput where
  t_sec : ℤ
  depth_m : ℚ
  temp_c : ℚ
  setpoint_ppo2 : Option ℚ
  ceiling_m : Option ℚ
  gf99 : Option ℚ
  gasmix_index : Option ℤ
deriving Repr, DecidableEq

/-- The `Default`-like sample used for (always in-range) indexed access in
the metrics model. -/
def defaultSample : SampleInput := ⟨0, 0, 0, none, none, none, none⟩

/-- Indexed access `l[i]` with a default for the (never exercised)
out-of-range case; models Rust slice/array indexing in the metrics and
tissue code, where every access is in range. -/
def listGetD {α : Type} : List α → ℕ → α → α
  | [], _, d => d
  | x :: _, 0, _ => x
  | _ :: xs, n + 1, d => listGetD xs n d

@[simp] theorem listGetD_nil {α : Type} (i : ℕ) (d : α) : listGetD [] i d = d := by
  cases i <;> rfl

@[simp] theorem listGetD_cons_zero {α : Type} (x : α) (xs : List α) (d : α) :
    listGetD (x :: xs) 0 d = x := rfl

@[simp] theorem listGetD_cons_succ {α : Type} (x : α) (xs : List α) (n : ℕ) (d : α) :
    listGetD (x :: xs) (n + 1) d = listGetD xs n d := rfl

/-- The last element of a list, with a default for the empty case; models
`samples.last().unwrap()` (only called on non-empty input). -/
def listLastD {α : Type} : List α → α → α
  | [], d => d
  | [x], _ => x
  | _ :: x :: xs, d => listLastD (x :: xs) d

@[simp] theorem listLastD_nil {α : Type} (d : α) : listLastD [] d = d := rfl

@[simp] theorem listLastD_singleton {α : Type} (x : α) (d : α) : listLastD [x] d = x := rfl

@[simp] theorem listLastD_cons_cons {α : Type} (x y : α) (xs : List α) (d : α) :
    listLastD (x :: y :: xs) d = listLastD (y :: xs) d := rfl

/-- `Iterator::position`: index of the first element satisfying `p`. -/
def find_position {α : Type} (p : α → Prop) [DecidablePred p] : List α → Option ℕ
  | [] => none
  | x :: xs => if p x then some 0 else (find_position p xs).map (· + 1)

@[simp] theorem find_position_nil {α : Type} (p : α → Prop) [DecidablePred p] :
    find_position p [] = none := rfl

theorem find_position_cons {α : Type} (p : α → Prop) [DecidablePred p] (x : α) (xs : List α) :
    find_position p (x :: xs) =
      if p x then some 0 else (find_position p xs).map (· + 1) := rfl

/-! ## Bühlmann ZHL-16C tissue simulation (src/core/src/buhlmann.rs)

All `f64` constants are exact decimals, modelled as exact rationals.  The
two transcendental ingredients — `f64::exp` and `ln(2)` — are parameters
(`expF`, `ln2`) of every definition that needs them; each verified claim
about the simulation holds for every choice of `expF` and `ln2`. -/

/-- Water vapour pressure in the lungs (bar). -/
def P_WATER_VAPOR : ℚ := 0.0627

/-- Pressure increase per metre of seawater (bar/m). -/
def BAR_PER_METER : ℚ := 0.101325

/-- Default surface atmospheric pressure (bar). -/
def DEFAULT_SURFACE_PRESSURE : ℚ := 1.01325

/-- Fraction of N2 in air. -/
def AIR_FN2 : ℚ := 0.7902

/-- Fraction of O2 in air. -/
def AIR_FO2 : ℚ := 0.2095

/-- Number of tissue compartments. -/
def NUM_COMPARTMENTS : ℕ := 16

/-- N2 half-times in minutes (ZHL-16C). -/
def N2_HALF_TIMES : List ℚ :=
  [5.0, 8.0, 12.5, 18.5, 27.0, 38.3, 54.3, 77.0, 109.0, 146.0, 187.0, 239.0,
   305.0, 390.0, 498.0, 635.0]

/-- He half-times in minutes (ZHL-16C). -/
def HE_HALF_TIMES : List ℚ :=
  [1.88, 3.02, 4.72, 6.99, 10.21, 14.48, 20.53, 29.11, 41.20, 55.19, 70.69,
   90.34, 115.29, 147.42, 188.24, 240.03]

/-- N2 `a` coefficients (bar). -/
def A_N2 : List ℚ :=
  [1.1696, 1.0000, 0.8618, 0.7562, 0.6200, 0.5043, 0.4410, 0.4000, 0.3750,
   0.3500, 0.3295, 0.3065, 0.2835, 0.2610, 0.2480, 0.2327]

/-- N2 `b` coefficients. -/
def B_N2 : List ℚ :=
  [0.5578, 0.6514, 0.7222, 0.7825, 0.8126, 0.8434, 0.8693, 0.8910, 0.9092,
   0.9222, 0.9319, 0.9403, 0.9477, 0.9544, 0.9602, 0.9653]

/-- He `a` coefficients (bar). -/
def A_HE : List ℚ :=
  [1.6189, 1.3830, 1.1919, 1.0458, 0.9220, 0.8205, 0.7305, 0.6502, 0.5950,
   0.5545, 0.5333, 0.5189, 0.5181, 0.5176, 0.5172, 0.5119]

/-- He `b` coefficients. -/
def B_HE : List ℚ :=
  [0.4770, 0.5747, 0.6527, 0.7223, 0.7582, 0.7957, 0.8279, 0.8553, 0.8757,
   0.8903, 0.8997, 0.9073, 0.9122, 0.9171, 0.9217, 0.9267]

/-- `GasMixInput` from `src/core/src/buhlmann.rs`. -/
structure GasMixInput where
  mix_index : ℤ
  o2_fraction : ℚ
  he_fraction : ℚ
deriving Repr, DecidableEq

/-- `SurfaceGfPoint` from `src/core/src/buhlmann.rs` (`f32`/`u8` casts of
the computed values are modelled as the identity; the computed doubles are
in range for the modelled claims). -/
structure SurfaceGfPoint where
  t_sec : ℤ
  surface_gf : ℚ
  leading_compartment : ℕ
deriving Repr, DecidableEq

/-- `TissueState`: the Rust fixed arrays `[f64; 16]` are modelled as
functions from compartment index; only indices `0..15` are ever read. -/
structure TissueState where
  p_n2 : ℕ → ℚ
  p_he : ℕ → ℚ

/-- `TissueState::surface_equilibrium`: every compartment's N2 pressure is
the inspired N2 pressure of air at the surface; He is 0. -/
def TissueState.surface_equilibrium (surface_pressure : ℚ) : TissueState :=
  { p_n2 := fun _ => (surface_pressure - P_WATER_VAPOR) * AIR_FN2
    p_he := fun _ => 0 }

/-- `TissueState::update`: Schreiner/exponential update of every
compartment, skipped entirely when `dt_sec ≤ 0`. -/
def TissueState.update (expF : ℚ → ℚ) (ln2 : ℚ) (st : TissueState)
    (dt_sec p_inspired_n2 p_inspired_he : ℚ) : TissueState :=
  if dt_sec ≤ 0 then st
  else
    { p_n2 := fun i =>
        let k_n2 := ln2 / (listGetD N2_HALF_TIMES i 0 * 60)
        p_inspired_n2 + (st.p_n2 i - p_inspired_n2) * expF (-(k_n2 * dt_sec))
      p_he := fun i =>
        let k_he := ln2 / (listGetD HE_HALF_TIMES i 0 * 60)
        p_inspired_he + (st.p_he i - p_inspired_he) * expF (-(k_he * dt_sec)) }

/-- `TissueState::compartment_gf`: gradient factor of one compartment at
the given ambient pressure, with Workman/Baker weighted coefficients and
the two `1e-10` guards of the source. -/
def TissueState.compartment_gf (st : TissueState) (i : ℕ) (ambient_pressure : ℚ) : ℚ :=
  let p_total := st.p_n2 i + st.p_he i
  let ab : ℚ × ℚ :=
    if p_total > 1e-10 then
      ((listGetD A_N2 i 0 * st.p_n2 i + listGetD A_HE i 0 * st.p_he i) / p_total,
       (listGetD B_N2 i 0 * st.p_n2 i + listGetD B_HE i 0 * st.p_he i) / p_total)
    else (listGetD A_N2 i 0, listGetD B_N2 i 0)
  let m_surface := ab.1 + ambient_pressure / ab.2
  let denom := m_surface - ambient_pressure
  if denom > 1e-10 then ((p_total - ambient_pressure) / denom) * 100 else 0

/-- The `for i in 0..16` scan of `surface_gf_and_leading`: `k` iterations
remain, `i` is the current index, `acc` is `(max_gf, leading)`, updated
only on strict `gf > max_gf`. -/
def sgl_loop (gf : ℕ → ℚ) : ℕ → ℕ → ℚ × ℕ → ℚ × ℕ
  | 0, _, acc => acc
  | k + 1, i, acc =>
      let g := gf i
      sgl_loop gf k (i + 1) (if g > acc.1 then (g, i) else acc)

/-- `TissueState::surface_gf_and_leading`: running maximum over the 16
compartments, initialised at `(0.0, 0)`. -/
def TissueState.surface_gf_and_leading (st : TissueState) (surface_pressure : ℚ) : ℚ × ℕ :=
  sgl_loop (fun i => st.compartment_gf i surface_pressure) NUM_COMPARTMENTS 0 (0, 0)

/-- The gas-mix lookup built from the input list
(`HashMap::insert` in input order: a later entry with the same
`mix_index` overwrites an earlier one). -/
def gas_lookup (gas_mixes : List GasMixInput) (i : ℤ) : Option (ℚ × ℚ) :=
  gas_mixes.foldl
    (fun acc mix => if mix.mix_index = i then some (mix.o2_fraction, mix.he_fraction) else acc)
    none

/-- The gas switch applied after each interval update: if the sample names
a gas-mix index and it resolves in the lookup, switch to it; otherwise
keep the current gas (no error). -/
def apply_gas_switch (lookup : ℤ → Option (ℚ × ℚ)) (gas : ℚ × ℚ) (s : SampleInput) : ℚ × ℚ :=
  match s.gasmix_index with
  | some mi =>
      match lookup mi with
      | some g => g
      | none => gas
  | none => gas

/-- The tissue update for the interval between `prev` and `s`, using the
gas `gas` breathed during that interval: time delta, clamped average
depth, ambient pressure, inspired partial pressures, Schreiner update. -/
def interval_update (expF : ℚ → ℚ) (ln2 : ℚ) (surface_p : ℚ)
    (st : TissueState) (gas : ℚ × ℚ) (prev s : SampleInput) : TissueState :=
  let dt_sec : ℚ := ((s.t_sec - prev.t_sec : ℤ) : ℚ)
  let avg_depth_m := max ((prev.depth_m + s.depth_m) / 2) 0
  let ambient_p := surface_p + avg_depth_m * BAR_PER_METER
  let fn2 := max (1 - gas.1 - gas.2) 0
  let p_inspired_n2 := (ambient_p - P_WATER_VAPOR) * fn2
  let p_inspired_he := (ambient_p - P_WATER_VAPOR) * gas.2
  st.update expF ln2 dt_sec p_inspired_n2 p_inspired_he

/-- The output point for the current tissue state and sample time. -/
def make_point (st : TissueState) (surface_p : ℚ) (t : ℤ) : SurfaceGfPoint :=
  let sl := st.surface_gf_and_leading surface_p
  ⟨t, sl.1, sl.2⟩

/-- The `idx > 0` iterations of the `compute_surface_gf` loop: update
tissues across the interval with the currently active gas, then apply the
current sample's gas switch, then emit the point. -/
def sgf_loop (expF : ℚ → ℚ) (ln2 surface_p : ℚ) (lookup : ℤ → Option (ℚ × ℚ)) :
    TissueState → ℚ × ℚ → SampleInput → List SampleInput → List SurfaceGfPoint
  | _, _, _, [] => []
  | st, gas, prev, s :: rest =>
      let st' := interval_update expF ln2 surface_p st gas prev s
      let gas' := apply_gas_switch lookup gas s
      make_point st' surface_p s.t_sec ::
        sgf_loop expF ln2 surface_p lookup st' gas' s rest

/-- `compute_surface_gf` from `src/core/src/buhlmann.rs`: empty input
yields empty output; otherwise start at surface equilibrium, take mix 0 as
the initial gas if present (else air), emit the first point with no
update, then run the interval loop. -/
def compute_surface_gf (expF : ℚ → ℚ) (ln2 : ℚ) (samples : List SampleInput)
    (gas_mixes : List GasMixInput) (surface_pressure_bar : Option ℚ) :
    List SurfaceGfPoint :=
  match samples with
  | [] => []
  | s0 :: rest =>
      let surface_p := surface_pressure_bar.getD DEFAULT_SURFACE_PRESSURE
      let tissues := TissueState.surface_equilibrium surface_p
      let lookup := gas_lookup gas_mixes
      let default_gas := (lookup 0).getD (AIR_FO2, 0)
      let gas1 := apply_gas_switch lookup default_gas s0
      make_point tissues surface_p s0.t_sec ::
        sgf_loop expF ln2 surface_p lookup tissues gas1 s0 rest

/-! ## Dive statistics (src/core/src/metrics.rs) -/

/-- `DepthClass` from `src/core/src/metrics.rs`. -/
inductive DepthClass where
  | recreational | deep | extended | extreme
deriving DecidableEq, Repr

/-- `DepthClass::from_depth_m`. -/
def DepthClass.from_depth_m (depth : ℚ) : DepthClass :=
  if depth ≤ 18 then .recreational
  else if depth ≤ 40 then .deep
  else if depth ≤ 60 then .extended
  else .extreme

/-- `DiveInput` from `src/core/src/metrics.rs`. -/
structure DiveInput where
  start_time_unix : ℤ
  end_time_unix : ℤ
  bottom_time_sec : ℤ
deriving Repr, DecidableEq

/-- `DiveStats` from `src/core/src/metrics.rs`. -/
structure DiveStats where
  total_time_sec : ℤ
  bottom_time_sec : ℤ
  deco_time_sec : ℤ
  max_depth_m : ℚ
  avg_depth_m : ℚ
  weighted_avg_depth_m : ℚ
  min_temp_c : ℚ
  max_temp_c : ℚ
  avg_temp_c : ℚ
  depth_class : DepthClass
  gas_switch_count : ℕ
  max_ceiling_m : ℚ
  max_gf99 : ℚ
  descent_rate_m_min : ℚ
  ascent_rate_m_min : ℚ
deriving Repr, DecidableEq

/-- `f32::MAX` as an exact rational (sentinel for the running minimum
temperature). -/
def F32_MAX : ℚ := (2 - (1 / 2) ^ 23) * 2 ^ 127

/-- `f32::MIN` (= `-f32::MAX`). -/
def F32_MIN : ℚ := -F32_MAX

/-- `DiveStats::compute_rates`: descent rate from profile start to the
first occurrence of the maximum depth, ascent rate from the last
occurrence of the maximum depth to profile end.  The Rust
`fold(f32::NEG_INFINITY, f32::max)` over a list of length ≥ 2 is the list
maximum, modelled as a fold seeded with the first element. -/
def compute_rates (samples : List SampleInput) : ℚ × ℚ :=
  if samples.length < 2 then (0, 0)
  else
    match samples with
    | [] => (0, 0)
    | s0 :: rest =>
        let all := s0 :: rest
        let max_depth := rest.foldl (fun m s => max m s.depth_m) s0.depth_m
        let first_max_idx :=
          (find_position (fun s => s.depth_m = max_depth) all).getD 0
        let last_max_idx :=
          all.length - 1 -
            (find_position (fun s => s.depth_m = max_depth) all.reverse).getD 0
        let descent_rate :=
          if first_max_idx > 0 then
            let dt_min : ℚ :=
              (((listGetD all first_max_idx defaultSample).t_sec - s0.t_sec : ℤ) : ℚ) / 60
            if dt_min > 0 then (listGetD all first_max_idx defaultSample).depth_m / dt_min
            else 0
          else 0
        let ascent_rate :=
          if last_max_idx < all.length - 1 then
            let lastS := listLastD all defaultSample
            let dt_min : ℚ :=
              ((lastS.t_sec - (listGetD all last_max_idx defaultSample).t_sec : ℤ) : ℚ) / 60
            if dt_min > 0 then
              ((listGetD all last_max_idx defaultSample).depth_m - lastS.depth_m) / dt_min
            else 0
          else 0
        (descent_rate, ascent_rate)

/-- The running accumulator of the `DiveStats::compute` sample loop, one
field per mutable local of the Rust function. -/
structure StatsAcc where
  max_depth_m : ℚ
  depth_sum : ℚ
  weighted_depth_sum : ℚ
  weight_sum : ℚ
  min_temp_c : ℚ
  max_temp_c : ℚ
  temp_sum : ℚ
  deco_time_sec : ℤ
  max_ceiling_m : ℚ
  max_gf99 : ℚ
  gas_switch_count : ℕ
  prev_gasmix_index : Option ℤ
  bottom_time_sec : ℤ

/-- One iteration of the `DiveStats::compute` loop, at index `i` of
`samples` (of length `n`).  The `dt` used for the time-weighted average,
deco time and bottom time is the interval to the next sample, else to the
previous sample, else 1. -/
def stats_step (samples : List SampleInput) (n : ℕ) (acc : StatsAcc) (i : ℕ) : StatsAcc :=
  let sample := listGetD samples i defaultSample
  let dt : ℤ :=
    if i + 1 < n then (listGetD samples (i + 1) defaultSample).t_sec - sample.t_sec
    else if i > 0 then sample.t_sec - (listGetD samples (i - 1) defaultSample).t_sec
    else 1
  let acc :=
    { acc with
      max_depth_m := if sample.depth_m > acc.max_depth_m then sample.depth_m else acc.max_depth_m
      depth_sum := acc.depth_sum + sample.depth_m
      weighted_depth_sum := acc.weighted_depth_sum + sample.depth_m * (dt : ℚ)
      weight_sum := acc.weight_sum + (dt : ℚ)
      min_temp_c := if sample.temp_c < acc.min_temp_c then sample.temp_c else acc.min_temp_c
      max_temp_c := if sample.temp_c > acc.max_temp_c then sample.temp_c else acc.max_temp_c
      temp_sum := acc.temp_sum + sample.temp_c }
  let acc :=
    match sample.ceiling_m with
    | some ceiling =>
        { acc with
          deco_time_sec := if ceiling > 0 then acc.deco_time_sec + dt else acc.deco_time_sec
          max_ceiling_m := if ceiling > acc.max_ceiling_m then ceiling else acc.max_ceiling_m }
    | none => acc
  let acc :=
    match sample.gf99 with
    | some g => { acc with max_gf99 := if g > acc.max_gf99 then g else acc.max_gf99 }
    | none => acc
  let acc :=
    match sample.gasmix_index with
    | some idx =>
        { acc with
          gas_switch_count :=
            match acc.prev_gasmix_index with
            | some prev => if idx ≠ prev then acc.gas_switch_count + 1 else acc.gas_switch_count
            | none => acc.gas_switch_count
          prev_gasmix_index := some idx }
    | none => acc
  if sample.depth_m > 3 then { acc with bottom_time_sec := acc.bottom_time_sec + dt }
  else acc

/-- `DiveStats::from_dive_only` (empty sample list). -/
def DiveStats.from_dive_only (dive : DiveInput) : DiveStats :=
  { total_time_sec := dive.end_time_unix - dive.start_time_unix
    bottom_time_sec := dive.bottom_time_sec
    deco_time_sec := 0
    max_depth_m := 0
    avg_depth_m := 0
    weighted_avg_depth_m := 0
    min_temp_c := 0
    max_temp_c := 0
    avg_temp_c := 0
    depth_class := .recreational
    gas_switch_count := 0
    max_ceiling_m := 0
    max_gf99 := 0
    descent_rate_m_min := 0
    ascent_rate_m_min := 0 }

/-- `DiveStats::compute` from `src/core/src/metrics.rs`. -/
def DiveStats.compute (dive : DiveInput) (samples : List SampleInput) : DiveStats :=
  if samples.isEmpty then DiveStats.from_dive_only dive
  else
    let n := samples.length
    let acc0 : StatsAcc := ⟨0, 0, 0, 0, F32_MAX, F32_MIN, 0, 0, 0, 0, 0, none, 0⟩
    let acc := (List.range n).foldl (stats_step samples n) acc0
    let avg_depth_m := acc.depth_sum / n
    let weighted_avg_depth_m :=
      if acc.weight_sum > 0 then acc.weighted_depth_sum / acc.weight_sum else avg_depth_m
    let avg_temp_c := acc.temp_sum / n
    let rates := compute_rates samples
    let min_temp_c := if acc.min_temp_c = F32_MAX then 0 else acc.min_temp_c
    let max_temp_c := if acc.max_temp_c = F32_MIN then 0 else acc.max_temp_c
    { total_time_sec := dive.end_time_unix - dive.start_time_unix
      bottom_time_sec := acc.bottom_time_sec
      deco_time_sec := acc.deco_time_sec
      max_depth_m := acc.max_depth_m
      avg_depth_m := avg_depth_m
      weighted_avg_depth_m := weighted_avg_depth_m
      min_temp_c := min_temp_c
      max_temp_c := max_temp_c
      avg_temp_c := avg_temp_c
      depth_class := DepthClass.from_depth_m acc.max_depth_m
      gas_switch_count := acc.gas_switch_count
      max_ceiling_m := acc.max_ceiling_m
      max_gf99 := acc.max_gf99
      descent_rate_m_min := rates.1
      ascent_rate_m_min := rates.2 }

/-! ## Concrete scenario inputs and specification-side definitions -/

/-- The six-sample dive profile of the dive-stats scenario in §8 of the
spec: `[(t=0,d=0),(t=60,d=30),(t=1200,d=30),(t=1260,d=20),(t=1320,d=10),
(t=1380,d=0)]` (temperature 20 °C, no optional fields). -/
def samples6 : List SampleInput :=
  [⟨0, 0, 20, none, none, none, none⟩,
   ⟨60, 30, 20, none, none, none, none⟩,
   ⟨1200, 30, 20, none, none, none, none⟩,
   ⟨1260, 20, 20, none, none, none, none⟩,
   ⟨1320, 10, 20, none, none, none, none⟩,
   ⟨1380, 0, 20, none, none, none, none⟩]

/-- A dive record spanning the `samples6` profile. -/
def dive6 : DiveInput := ⟨0, 1380, 0⟩

/-- The tissue state at surface equilibrium under the default surface
pressure — the state from which the first output point of every
simulation run is computed. -/
def eqState : TissueState := TissueState.surface_equilibrium DEFAULT_SURFACE_PRESSURE

/-- Modelled from the spec's words (for comparison with the source's
`surface_gf_and_leading`): "the maximum of the per-compartment gradient
factors over all 16 compartments" — the plain maximum, with no clamping
at 0. -/
def spec_max_compartment_gf (st : TissueState) (p : ℚ) : ℚ :=
  ((List.range NUM_COMPARTMENTS).map fun i => st.compartment_gf i p).foldl max
    (st.compartment_gf 0 p)

/-- The `(tissues, current gas, previous sample)` state reached by the
`compute_surface_gf` loop after consuming a list of samples: each sample
first updates the tissues across its interval using the gas active going
into the interval, then applies its own gas switch. -/
def sim_fold (expF : ℚ → ℚ) (ln2 surface_p : ℚ) (lookup : ℤ → Option (ℚ × ℚ))
    (init : TissueState × (ℚ × ℚ) × SampleInput) (l : List SampleInput) :
    TissueState × (ℚ × ℚ) × SampleInput :=
  l.foldl
    (fun acc s =>
      (interval_update expF ln2 surface_p acc.1 acc.2.1 acc.2.2 s,
       apply_gas_switch lookup acc.2.1 s, s))
    init

/-! ## Theorems -/

/-- Claim C4, counterexample: on the six-sample scenario the code reports
an ascent rate of 10 m/min — the 30 m depth drop from the last occurrence
of the maximum depth (t = 1200 s) to profile end (t = 1380 s) takes
3 minutes — not the 90 m/min asserted by the claim. -/
theorem c4_counterexample :
    (DiveStats.compute dive6 samples6).ascent_rate_m_min = 10 ∧
    (DiveStats.compute dive6 samples6).ascent_rate_m_min ≠ 90 := by
  have h : (DiveStats.compute dive6 samples6).ascent_rate_m_min = 10 := by
    norm_num [DiveStats.compute, compute_rates, samples6, dive6, stats_step,
      List.range_succ, find_position_cons, F32_MAX, F32_MIN]
  exact ⟨h, by rw [h]; norm_num⟩

/-- Claim C4, amended: the six-sample scenario reports maximum depth 30 m,
depth class Deep, descent rate 30 m/min (30 m over 1 minute to the first
occurrence of max depth at t = 60 s), and ascent rate 10 m/min (30 m over
3 minutes from the last occurrence of max depth at t = 1200 s to profile
end at t = 1380 s). -/
theorem c4_dive_stats_scenario :
    (DiveStats.compute dive6 samples6).max_depth_m = 30 ∧
    (DiveStats.compute dive6 samples6).depth_class = DepthClass.deep ∧
    (DiveStats.compute dive6 samples6).descent_rate_m_min = 30 ∧
    (DiveStats.compute dive6 samples6).ascent_rate_m_min = 10 := by
  norm_num [DiveStats.compute, compute_rates, samples6, dive6, stats_step,
    List.range_succ, find_position_cons, F32_MAX, F32_MIN, DepthClass.from_depth_m]

/-- Claim C5, counterexample: the evaluator's `==` is not IEEE-754
equality: at `l = 0` and `r = 2⁻⁵³` (both exactly representable doubles,
with exact subtraction), the code's `(l - r).abs() < f64::EPSILON` test
yields `true` and `!=` yields `false`, although `l ≠ r`. -/
theorem c5_counterexample :
    evaluate_binary BinaryOp.eq (Value.number 0) (Value.number (1 / 2 ^ 53)) =
      .ok (.boolean true) ∧
    evaluate_binary BinaryOp.neq (Value.number 0) (Value.number (1 / 2 ^ 53)) =
      .ok (.boolean false) ∧
    (0 : ℚ) ≠ 1 / 2 ^ 53 := by
  refine ⟨?_, ?_, by norm_num⟩ <;>
    · simp only [evaluate_binary, Value.as_number, f64_epsilon]
      norm_num [abs_of_pos]

/-- Claim C5, amended: for numeric operands, `l == r` yields `true`
exactly when `|l − r| < f64::EPSILON` (= 2⁻⁵²) — an absolute-epsilon
tolerance, not IEEE-754 equality — and `l != r` yields its negation. -/
theorem c5_eq_is_epsilon_comparison (l r : ℚ) :
    evaluate_binary BinaryOp.eq (Value.number l) (Value.number r) =
      .ok (.boolean (decide (|l - r| < f64_epsilon))) ∧
    evaluate_binary BinaryOp.neq (Value.number l) (Value.number r) =
      .ok (.boolean (!decide (|l - r| < f64_epsilon))) ∧
    f64_epsilon = 1 / 2 ^ 52 := by
  refine ⟨rfl, ?_, rfl⟩
  simp only [evaluate_binary, Value.as_number, ← decide_not, not_lt]

/-- Claim C6: the ternary evaluates only the taken branch, while the
`if(cond, a, b)` built-in evaluates all three arguments eagerly before
selecting: with a division by zero in the untaken else-branch, the
ternary succeeds and the `if` call fails with `DivisionByZero`. -/
theorem c6_ternary_short_circuits_if_eager :
    evaluate noVars (Expr.ternary (.boolean true) (.number 1)
        (.binary .div (.number 1) (.number 0))) = .ok (.number 1) ∧
    evaluate noVars (Expr.functionCall "if"
        [.boolean true, .number 1, .binary .div (.number 1) (.number 0)]) =
      .error .divisionByZero :=
  ⟨rfl, rfl⟩

/-- Claim C7: `min(a,b)` with an empty variable lookup fails with
`UnknownVariable("a")` — the arguments are evaluated (left to right)
before any arity check runs — and `min(1)` fails with
`InvalidArgCount("min", 2, 1)`. -/
theorem c7_min_error_order :
    parse "min(a,b)" = .ok (Expr.functionCall "min" [Expr.var "a", Expr.var "b"]) ∧
    evaluate noVars (Expr.functionCall "min" [Expr.var "a", Expr.var "b"]) =
      .error (.unknownVariable "a") ∧
    evaluate noVars (Expr.functionCall "min" [Expr.number 1]) =
      .error (.invalidArgCount "min" 2 1) :=
  ⟨rfl, rfl, rfl⟩

/-- Invariant of the `surface_gf_and_leading` scan: starting from an
accumulator that correctly summarises the compartments below `i`, after
`k` more iterations the accumulator correctly summarises the compartments
below `i + k`: its first component is non-negative and bounds every
scanned gradient factor, and when positive it is attained at the recorded
index, every earlier index being strictly smaller. -/
theorem sgl_loop_invariant (gf : ℕ → ℚ) :
    ∀ (k i : ℕ) (acc : ℚ × ℕ),
      0 ≤ acc.1 →
      (∀ j, j < i → gf j ≤ acc.1) →
      (0 < acc.1 → acc.2 < i ∧ gf acc.2 = acc.1 ∧ ∀ j, j < acc.2 → gf j < acc.1) →
      (acc.1 = 0 → acc.2 = 0) →
      0 ≤ (sgl_loop gf k i acc).1 ∧
      (∀ j, j < i + k → gf j ≤ (sgl_loop gf k i acc).1) ∧
      (0 < (sgl_loop gf k i acc).1 →
        (sgl_loop gf k i acc).2 < i + k ∧
        gf (sgl_loop gf k i acc).2 = (sgl_loop gf k i acc).1 ∧
        ∀ j, j < (sgl_loop gf k i acc).2 → gf j < (sgl_loop gf k i acc).1) ∧
      ((sgl_loop gf k i acc).1 = 0 → (sgl_loop gf k i acc).2 = 0) := by
  intro k
  induction k with
  | zero =>
      intro i acc h0 hle hpos hz
      simpa [sgl_loop] using ⟨h0, fun j hj => hle j (by omega), hpos, hz⟩
  | succ k ih =>
      intro i acc h0 hle hpos hz
      rw [sgl_loop]
      by_cases hgt : gf i > acc.1
      · have h := ih (i + 1) (gf i, i)
          (le_of_lt (lt_of_le_of_lt h0 hgt))
          (by
            intro j hj
            rcases Nat.lt_succ_iff_lt_or_eq.mp hj with hj' | hj'
            · exact le_of_lt (lt_of_le_of_lt (hle j hj') hgt)
            · subst hj'; exact le_refl _)
          (by
            intro _
            exact ⟨Nat.lt_succ_self i, rfl,
              fun j hj => lt_of_le_of_lt (hle j hj) hgt⟩)
          (by
            intro hzero
            have h' : gf i = 0 := hzero
            exact absurd (lt_of_le_of_lt h0 hgt) (by rw [h']; exact lt_irrefl 0))
        simp only [if_pos hgt]
        have harith : i + 1 + k = i + (k + 1) := by omega
        rw [harith] at h
        exact h
      · have h := ih (i + 1) acc h0
          (by
            intro j hj
            rcases Nat.lt_succ_iff_lt_or_eq.mp hj with hj' | hj'
            · exact hle j hj'
            · subst hj'; exact le_of_not_lt hgt)
          (by
            intro hp
            obtain ⟨h1, h2, h3⟩ := hpos hp
            exact ⟨Nat.lt_succ_of_lt h1, h2, h3⟩)
          hz
        simp only [if_neg hgt]
        have harith : i + 1 + k = i + (k + 1) := by omega
        rw [harith] at h
        exact h

/-- The characterization of `surface_gf_and_leading` obtained from the
scan invariant at `k = 16`, `i = 0`, `acc = (0, 0)`. -/
theorem surface_gf_and_leading_spec (st : TissueState) (p : ℚ) :
    0 ≤ (st.surface_gf_and_leading p).1 ∧
    (∀ i, i < 16 → st.compartment_gf i p ≤ (st.surface_gf_and_leading p).1) ∧
    (0 < (st.surface_gf_and_leading p).1 →
      (st.surface_gf_and_leading p).2 < 16 ∧
      st.compartment_gf (st.surface_gf_and_leading p).2 p =
        (st.surface_gf_and_leading p).1 ∧
      ∀ j, j < (st.surface_gf_and_leading p).2 →
        st.compartment_gf j p < (st.surface_gf_and_leading p).1) ∧
    ((st.surface_gf_and_leading p).1 = 0 → (st.surface_gf_and_leading p).2 = 0) := by
  have h := sgl_loop_invariant (fun i => st.compartment_gf i p) 16 0 (0, 0)
    (le_refl 0) (by omega) (by norm_num) (fun _ => rfl)
  simpa [TissueState.surface_gf_and_leading, NUM_COMPARTMENTS] using h

/-- Every point the interval loop emits is a `make_point` of some tissue
state at the run's surface pressure. -/
theorem mem_sgf_loop (expF : ℚ → ℚ) (ln2 surface_p : ℚ)
    (lookup : ℤ → Option (ℚ × ℚ)) :
    ∀ (rest : List SampleInput) (st : TissueState) (gas : ℚ × ℚ)
      (prev : SampleInput) (pt : SurfaceGfPoint),
      pt ∈ sgf_loop expF ln2 surface_p lookup st gas prev rest →
      ∃ st' t, pt = make_point st' surface_p t := by
  intro rest
  induction rest with
  | nil => intro st gas prev pt h; simp [sgf_loop] at h
  | cons s rest ih =>
      intro st gas prev pt h
      simp only [sgf_loop, List.mem_cons] at h
      rcases h with h | h
      · exact ⟨_, _, h⟩
      · exact ih _ _ _ _ h

set_option maxRecDepth 8000 in
/-- Claim C2, counterexample: on the one-sample profile `[(t=0, d=0)]`
the reported pair is computed from the surface-equilibrium state, whose
reported surface GF is 0 while every one of its 16 compartment gradient
factors — hence also their maximum — is negative: the reported value is
not the maximum of the per-compartment gradient factors. -/
theorem c2_counterexample :
    compute_surface_gf (fun _ => 1) 0 [⟨0, 0, 20, none, none, none, none⟩] [] none =
      [make_point eqState DEFAULT_SURFACE_PRESSURE 0] ∧
    (eqState.surface_gf_and_leading DEFAULT_SURFACE_PRESSURE).1 = 0 ∧
    spec_max_compartment_gf eqState DEFAULT_SURFACE_PRESSURE < 0 ∧
    (eqState.surface_gf_and_leading DEFAULT_SURFACE_PRESSURE).1 ≠
      spec_max_compartment_gf eqState DEFAULT_SURFACE_PRESSURE := by
  have h1 : (eqState.surface_gf_and_leading DEFAULT_SURFACE_PRESSURE).1 = 0 := by
    norm_num [eqState, TissueState.surface_gf_and_leading, sgl_loop, NUM_COMPARTMENTS,
      TissueState.surface_equilibrium, TissueState.compartment_gf,
      N2_HALF_TIMES, HE_HALF_TIMES, A_N2, B_N2, A_HE, B_HE,
      P_WATER_VAPOR, AIR_FN2, DEFAULT_SURFACE_PRESSURE]
  have h2 : spec_max_compartment_gf eqState DEFAULT_SURFACE_PRESSURE < 0 := by
    norm_num [spec_max_compartment_gf, NUM_COMPARTMENTS, List.range_succ, eqState,
      TissueState.surface_equilibrium, TissueState.compartment_gf,
      A_N2, B_N2, A_HE, B_HE, P_WATER_VAPOR, AIR_FN2, DEFAULT_SURFACE_PRESSURE]
  exact ⟨rfl, h1, h2, by rw [h1]; exact ne_of_gt h2⟩

/-- Claim C2, amended: the reported surface GF is the running maximum of
the per-compartment gradient factors *initialised at 0* (so it is
`max(0, max_i GF_i)`, never the plain maximum when all factors are
negative), and the leading index is the lowest compartment index
attaining a strictly positive maximum (ascending scan, strict
greater-than), with index 0 reported when no compartment exceeds 0. -/
theorem c2_reported_gf_is_clamped_max (st : TissueState) (p : ℚ) :
    0 ≤ (st.surface_gf_and_leading p).1 ∧
    (∀ i, i < 16 → st.compartment_gf i p ≤ (st.surface_gf_and_leading p).1) ∧
    (0 < (st.surface_gf_and_leading p).1 →
      (st.surface_gf_and_leading p).2 < 16 ∧
      st.compartment_gf (st.surface_gf_and_leading p).2 p =
        (st.surface_gf_and_leading p).1 ∧
      ∀ j, j < (st.surface_gf_and_leading p).2 →
        st.compartment_gf j p < (st.surface_gf_and_leading p).1) ∧
    ((st.surface_gf_and_leading p).1 = 0 → (st.surface_gf_and_leading p).2 = 0) :=
  surface_gf_and_leading_spec st p

set_option maxRecDepth 8000 in
/-- Witness for C2 (amended): at surface equilibrium the reported leading
compartment is 0. -/
theorem c2_witness :
    (eqState.surface_gf_and_leading DEFAULT_SURFACE_PRESSURE).2 = 0 := by
  have h := c2_reported_gf_is_clamped_max eqState DEFAULT_SURFACE_PRESSURE
  refine h.2.2.2 ?_
  norm_num [eqState, TissueState.surface_gf_and_leading, sgl_loop, NUM_COMPARTMENTS,
    TissueState.surface_equilibrium, TissueState.compartment_gf,
    N2_HALF_TIMES, HE_HALF_TIMES, A_N2, B_N2, A_HE, B_HE,
    P_WATER_VAPOR, AIR_FN2, DEFAULT_SURFACE_PRESSURE]

/-- Claim C9: every output point of `compute_surface_gf` carries a
non-negative surface GF (the compartment scan starts its maximum at 0),
and a tissue state whose 16 compartment gradient factors are all negative
reports exactly `(0, 0)` — value 0, leading compartment 0. -/
theorem c9_surface_gf_nonneg :
    (∀ (expF : ℚ → ℚ) (ln2 : ℚ) (samples : List SampleInput)
        (gas_mixes : List GasMixInput) (sp : Option ℚ) (pt : SurfaceGfPoint),
        pt ∈ compute_surface_gf expF ln2 samples gas_mixes sp →
        0 ≤ pt.surface_gf) ∧
    (∀ (st : TissueState) (p : ℚ),
        (∀ i, i < 16 → st.compartment_gf i p < 0) →
        st.surface_gf_and_leading p = (0, 0)) := by
  constructor
  · intro expF ln2 samples gas_mixes sp pt hmem
    have hpoint : ∃ st' t,
        pt = make_point st' (sp.getD DEFAULT_SURFACE_PRESSURE) t := by
      cases samples with
      | nil => simp [compute_surface_gf] at hmem
      | cons s0 rest =>
          simp only [compute_surface_gf, List.mem_cons] at hmem
          rcases hmem with h | h
          · exact ⟨_, _, h⟩
          · exact mem_sgf_loop _ _ _ _ _ _ _ _ _ h
    obtain ⟨st', t, rfl⟩ := hpoint
    exact (surface_gf_and_leading_spec st' _).1
  · intro st p hneg
    have h := surface_gf_and_leading_spec st p
    have hz : (st.surface_gf_and_leading p).1 = 0 := by
      rcases lt_or_eq_of_le h.1 with hpos | hzero
      · obtain ⟨hlt, heq, _⟩ := h.2.2.1 hpos
        exact absurd (heq ▸ hneg _ hlt) (not_lt_of_lt hpos)
      · exact hzero.symm
    have h2 := h.2.2.2 hz
    calc st.surface_gf_and_leading p
        = ((st.surface_gf_and_leading p).1, (st.surface_gf_and_leading p).2) := rfl
      _ = (0, 0) := by rw [hz, h2]

/-- Witness for C9: the single output point of a one-sample run has a
non-negative surface GF. -/
theorem c9_witness :
    0 ≤ (make_point eqState DEFAULT_SURFACE_PRESSURE 0).surface_gf :=
  c9_surface_gf_nonneg.1 (fun _ => 1) 0 [⟨0, 0, 20, none, none, none, none⟩] [] none _
    (List.mem_singleton.mpr rfl)

/-- The interval loop emits exactly one point per remaining sample, in
order, carrying that sample's time offset. -/
theorem sgf_loop_map_t_sec (expF : ℚ → ℚ) (ln2 surface_p : ℚ)
    (lookup : ℤ → Option (ℚ × ℚ)) :
    ∀ (rest : List SampleInput) (st : TissueState) (gas : ℚ × ℚ)
      (prev : SampleInput),
      (sgf_loop expF ln2 surface_p lookup st gas prev rest).map
          SurfaceGfPoint.t_sec =
        rest.map SampleInput.t_sec := by
  intro rest
  induction rest with
  | nil => intros; rfl
  | cons s rest ih => intro st gas prev; simp [sgf_loop, make_point, ih]

/-- Claim C1: `compute_surface_gf` returns one point per input sample, in
the same order, each carrying its sample's time offset; the empty profile
yields the empty output; and the first output point is `make_point` of
the *initial surface-equilibrium state* — no tissue update has been
applied to it (in particular it does not depend on `expF`/`ln2`). -/
theorem c1_output_shape (expF : ℚ → ℚ) (ln2 : ℚ) (samples : List SampleInput)
    (gas_mixes : List GasMixInput) (sp : Option ℚ) :
    (compute_surface_gf expF ln2 samples gas_mixes sp).map SurfaceGfPoint.t_sec =
      samples.map SampleInput.t_sec ∧
    (compute_surface_gf expF ln2 samples gas_mixes sp).length = samples.length ∧
    (samples = [] → compute_surface_gf expF ln2 samples gas_mixes sp = []) ∧
    (∀ s0 rest, samples = s0 :: rest →
      (compute_surface_gf expF ln2 samples gas_mixes sp).head? =
        some (make_point
          (TissueState.surface_equilibrium (sp.getD DEFAULT_SURFACE_PRESSURE))
          (sp.getD DEFAULT_SURFACE_PRESSURE) s0.t_sec)) := by
  have hmap : (compute_surface_gf expF ln2 samples gas_mixes sp).map
      SurfaceGfPoint.t_sec = samples.map SampleInput.t_sec := by
    cases samples with
    | nil => rfl
    | cons s0 rest =>
        simp [compute_surface_gf, make_point, sgf_loop_map_t_sec]
  refine ⟨hmap, ?_, ?_, ?_⟩
  · have := congrArg List.length hmap
    simpa using this
  · intro h; subst h; rfl
  · intro s0 rest h
    subst h
    rfl

/-- Witness for C1: on a one-sample profile the single output point is
computed from the surface-equilibrium state. -/
theorem c1_witness :
    (compute_surface_gf (fun _ => 1) 0 [⟨5, 0, 20, none, none, none, none⟩]
        [] none).head? =
      some (make_point eqState DEFAULT_SURFACE_PRESSURE 5) :=
  (c1_output_shape (fun _ => 1) 0 [⟨5, 0, 20, none, none, none, none⟩] [] none).2.2.2
    ⟨5, 0, 20, none, none, none, none⟩ [] rfl

/-- When no remaining sample names a gas mix, the interval loop never
consults the lookup table, so two runs with different tables but the same
starting state coincide. -/
theorem sgf_loop_no_switch (expF : ℚ → ℚ) (ln2 surface_p : ℚ)
    (lookupA lookupB : ℤ → Option (ℚ × ℚ)) :
    ∀ (rest : List SampleInput) (st : TissueState) (gas : ℚ × ℚ)
      (prev : SampleInput),
      (∀ s ∈ rest, s.gasmix_index = none) →
      sgf_loop expF ln2 surface_p lookupA st gas prev rest =
        sgf_loop expF ln2 surface_p lookupB st gas prev rest := by
  intro rest
  induction rest with
  | nil => intros; rfl
  | cons s rest ih =>
      intro st gas prev h
      have hs : s.gasmix_index = none := h s (List.mem_cons_self s rest)
      have hrest : ∀ s' ∈ rest, s'.gasmix_index = none :=
        fun s' hmem => h s' (List.mem_cons_of_mem s hmem)
      simp [sgf_loop, apply_gas_switch, hs, ih _ _ _ hrest]

/-- Claim C10: when the gas-mix table has an entry with index 0 it is the
initial breathing gas even if no sample references any mix — the run
equals a run whose whole table is that one entry; without an index-0
entry the initial gas is air — the run equals a run with an empty table. -/
theorem c10_initial_gas (expF : ℚ → ℚ) (ln2 : ℚ) (samples : List SampleInput)
    (gas_mixes : List GasMixInput) (sp : Option ℚ)
    (h : ∀ s ∈ samples, s.gasmix_index = none) :
    (∀ fo2 fhe, gas_lookup gas_mixes 0 = some (fo2, fhe) →
        compute_surface_gf expF ln2 samples gas_mixes sp =
          compute_surface_gf expF ln2 samples [⟨0, fo2, fhe⟩] sp) ∧
    (gas_lookup gas_mixes 0 = none →
        compute_surface_gf expF ln2 samples gas_mixes sp =
          compute_surface_gf expF ln2 samples [] sp) := by
  constructor
  · intro fo2 fhe hlk
    cases samples with
    | nil => rfl
    | cons s0 rest =>
        have hs0 : s0.gasmix_index = none := h s0 (List.mem_cons_self s0 rest)
        have hrest : ∀ s' ∈ rest, s'.gasmix_index = none :=
          fun s' hmem => h s' (List.mem_cons_of_mem s0 hmem)
        have hlk' : gas_lookup [⟨0, fo2, fhe⟩] 0 = some (fo2, fhe) := rfl
        simp only [compute_surface_gf, hlk, hlk', Option.getD_some,
          apply_gas_switch, hs0]
        exact congrArg _ (sgf_loop_no_switch _ _ _ _ _ _ _ _ _ hrest)
  · intro hlk
    cases samples with
    | nil => rfl
    | cons s0 rest =>
        have hs0 : s0.gasmix_index = none := h s0 (List.mem_cons_self s0 rest)
        have hrest : ∀ s' ∈ rest, s'.gasmix_index = none :=
          fun s' hmem => h s' (List.mem_cons_of_mem s0 hmem)
        have hlk' : gas_lookup ([] : List GasMixInput) 0 = none := rfl
        simp only [compute_surface_gf, hlk, hlk', Option.getD_none,
          apply_gas_switch, hs0]
        exact congrArg _ (sgf_loop_no_switch _ _ _ _ _ _ _ _ _ hrest)

/-- Witness for C10: a run whose table holds EAN21 at index 0 plus an
unused second mix equals the run with just the index-0 entry. -/
theorem c10_witness :
    compute_surface_gf (fun _ => 1) 0
        [⟨0, 10, 20, none, none, none, none⟩]
        [⟨0, 21 / 100, 0⟩, ⟨1, 1 / 2, 0⟩] none =
      compute_surface_gf (fun _ => 1) 0
        [⟨0, 10, 20, none, none, none, none⟩] [⟨0, 21 / 100, 0⟩] none :=
  (c10_initial_gas (fun _ => 1) 0 [⟨0, 10, 20, none, none, none, none⟩]
      [⟨0, 21 / 100, 0⟩, ⟨1, 1 / 2, 0⟩] none (by decide)).1 (21 / 100) 0 rfl

/-- The gas component of the loop state after consuming a sample prefix is
the pure fold of the gas switches over that prefix: it depends only on the
samples' gas-mix indices, never on the tissue updates. -/
theorem sim_fold_gas (expF : ℚ → ℚ) (ln2 surface_p : ℚ)
    (lookup : ℤ → Option (ℚ × ℚ)) :
    ∀ (l : List SampleInput) (init : TissueState × (ℚ × ℚ) × SampleInput),
      (sim_fold expF ln2 surface_p lookup init l).2.1 =
        l.foldl (apply_gas_switch lookup) init.2.1 := by
  intro l
  induction l with
  | nil => intro init; rfl
  | cons s l ih => intro init; simpa [sim_fold, List.foldl_cons] using ih _

/-- The point at index `j` of the interval loop's output is obtained by
folding the first `j` samples into the loop state and then applying the
interval update for sample `j` — with the gas of the folded state, i.e.
the gas *before* sample `j`'s own switch. -/
theorem sgf_loop_get (expF : ℚ → ℚ) (ln2 surface_p : ℚ)
    (lookup : ℤ → Option (ℚ × ℚ)) :
    ∀ (rest : List SampleInput) (st : TissueState) (gas : ℚ × ℚ)
      (prev : SampleInput) (j : ℕ), j < rest.length →
      (sgf_loop expF ln2 surface_p lookup st gas prev rest)[j]? =
        some (make_point
          (interval_update expF ln2 surface_p
            (sim_fold expF ln2 surface_p lookup (st, gas, prev) (rest.take j)).1
            (sim_fold expF ln2 surface_p lookup (st, gas, prev) (rest.take j)).2.1
            (sim_fold expF ln2 surface_p lookup (st, gas, prev) (rest.take j)).2.2
            (listGetD rest j defaultSample))
          surface_p (listGetD rest j defaultSample).t_sec) := by
  intro rest
  induction rest with
  | nil => intro st gas prev j hj; simp at hj
  | cons s rest ih =>
      intro st gas prev j hj
      cases j with
      | zero => simp [sgf_loop, sim_fold]
      | succ j =>
          have hj' : j < rest.length := by simpa using hj
          simpa [sgf_loop, sim_fold, List.take_succ_cons] using
            ih (interval_update expF ln2 surface_p st gas prev s)
              (apply_gas_switch lookup gas s) s j hj'

/-- Claim C3: output `j + 1` of a run on `s0 :: rest` is the point of the
tissue state obtained by updating the folded state across the interval to
sample `j` of `rest` — and the gas used for that update is the fold of
the gas switches of samples `0 .. j` only (sample `j + 1`'s own switch has
not yet been applied); switches with an absent or unresolvable gas-mix
index leave the gas unchanged (and the simulation is total: no error). -/
theorem c3_interval_gas (expF : ℚ → ℚ) (ln2 : ℚ) (s0 : SampleInput)
    (rest : List SampleInput) (gas_mixes : List GasMixInput) (sp : Option ℚ)
    (j : ℕ) (hj : j < rest.length) :
    let sp' := sp.getD DEFAULT_SURFACE_PRESSURE
    let lookup := gas_lookup gas_mixes
    let g0 := (lookup 0).getD (AIR_FO2, 0)
    let pre := sim_fold expF ln2 sp' lookup
      (TissueState.surface_equilibrium sp', apply_gas_switch lookup g0 s0, s0)
      (rest.take j)
    (compute_surface_gf expF ln2 (s0 :: rest) gas_mixes sp)[j + 1]? =
      some (make_point
        (interval_update expF ln2 sp' pre.1 pre.2.1 pre.2.2
          (listGetD rest j defaultSample))
        sp' (listGetD rest j defaultSample).t_sec) ∧
    pre.2.1 =
      (s0 :: rest.take j).foldl (apply_gas_switch lookup) g0 ∧
    (∀ (g : ℚ × ℚ) (s : SampleInput), s.gasmix_index = none →
      apply_gas_switch lookup g s = g) ∧
    (∀ (g : ℚ × ℚ) (s : SampleInput) (mi : ℤ), s.gasmix_index = some mi →
      lookup mi = none → apply_gas_switch lookup g s = g) := by
  intro sp' lookup g0 pre
  refine ⟨?_, ?_, ?_, ?_⟩
  · simpa [compute_surface_gf] using
      sgf_loop_get expF ln2 sp' lookup rest
        (TissueState.surface_equilibrium sp')
        (apply_gas_switch lookup g0 s0) s0 j hj
  · rw [List.foldl_cons]
    exact sim_fold_gas expF ln2 sp' lookup (rest.take j) _
  · intro g s hs; simp [apply_gas_switch, hs]
  · intro g s mi hs hmi; simp [apply_gas_switch, hs, hmi]

/-- Witness for C3: on a two-sample dive where sample 1 switches to mix 1,
the tissue update for the first interval still uses mix 0 (the gas
breathed going into the interval). -/
theorem c3_witness :
    (compute_surface_gf (fun _ => 1) 0
        [⟨0, 0, 20, none, none, none, none⟩,
         ⟨60, 10, 20, none, none, none, some 1⟩]
        [⟨0, 21 / 100, 0⟩, ⟨1, 1 / 2, 0⟩] none)[1]? =
      some (make_point
        (interval_update (fun _ => 1) 0 DEFAULT_SURFACE_PRESSURE eqState
          (21 / 100, 0)
          ⟨0, 0, 20, none, none, none, none⟩
          ⟨60, 10, 20, none, none, none, some 1⟩)
        DEFAULT_SURFACE_PRESSURE 60) :=
  (c3_interval_gas (fun _ => 1) 0 ⟨0, 0, 20, none, none, none, none⟩
      [⟨60, 10, 20, none, none, none, some 1⟩]
      [⟨0, 21 / 100, 0⟩, ⟨1, 1 / 2, 0⟩] none 0 (by norm_num)).1

/-- Successful sequencing splits into a successful first step and a
successful continuation. -/
theorem PResult.andThen_ok {α β : Type} {x : PResult α}
    {f : List Char → α → PResult β} {r : List Char} {v : β}
    (h : x.andThen f = .ok r v) :
    ∃ r1 v1, x = .ok r1 v1 ∧ f r1 v1 = .ok r v := by
  cases x with
  | ok a b => exact ⟨a, b, rfl, h⟩
  | err => exact PResult.noConfusion h
  | fail => exact PResult.noConfusion h

/-- `multispace0` returns a suffix of its input. -/
theorem multispace0_suffix (s : List Char) : multispace0 s <:+ s :=
  List.dropWhile_suffix _

/-- `pchar` returns a suffix of its input. -/
theorem pchar_suffix {c : Char} {s r : List Char} {v : Unit}
    (h : pchar c s = .ok r v) : r <:+ s := by
  cases s with
  | nil => exact PResult.noConfusion h
  | cons x xs =>
      by_cases hx : x = c
      · have h' : PResult.ok xs () = PResult.ok r v := by
          simpa [pchar, hx] using h
        injection h' with h1 _
        exact h1 ▸ List.suffix_cons x xs
      · rw [show pchar c (x :: xs) = .err by simp [pchar, hx]] at h
        exact PResult.noConfusion h

/-- `tag` returns a suffix of its input. -/
theorem ptag_suffix : ∀ {t s r : List Char} {v : Unit},
    ptag t s = .ok r v → r <:+ s := by
  intro t
  induction t with
  | nil =>
      intro s r v h
      have h' : PResult.ok s () = PResult.ok r v := h
      injection h' with h1 _
      exact h1 ▸ List.suffix_rfl
  | cons c cs ih =>
      intro s r v h
      cases s with
      | nil => exact PResult.noConfusion h
      | cons x xs =>
          by_cases hx : x = c
          · rw [show ptag (c :: cs) (x :: xs) = ptag cs xs by simp [ptag, hx]] at h
            exact (ih h).trans (List.suffix_cons x xs)
          · rw [show ptag (c :: cs) (x :: xs) = .err by simp [ptag, hx]] at h
            exact PResult.noConfusion h

/-- `tag_no_case` returns a suffix of its input. -/
theorem ptagNoCase_suffix : ∀ {t s r : List Char} {v : Unit},
    ptagNoCase t s = .ok r v → r <:+ s := by
  intro t
  induction t with
  | nil =>
      intro s r v h
      have h' : PResult.ok s () = PResult.ok r v := h
      injection h' with h1 _
      exact h1 ▸ List.suffix_rfl
  | cons c cs ih =>
      intro s r v h
      cases s with
      | nil => exact PResult.noConfusion h
      | cons x xs =>
          by_cases hx : lowerChar x = lowerChar c
          · rw [show ptagNoCase (c :: cs) (x :: xs) = ptagNoCase cs xs by
              simp [ptagNoCase, hx]] at h
            exact (ih h).trans (List.suffix_cons x xs)
          · rw [show ptagNoCase (c :: cs) (x :: xs) = .err by simp [ptagNoCase, hx]] at h
            exact PResult.noConfusion h

/-- `take_while1` returns a suffix of its input. -/
theorem takeWhile1_suffix {p : Char → Bool} {s r tk : List Char}
    (h : takeWhile1 p s = .ok r tk) : r <:+ s := by
  by_cases he : s.takeWhile p = []
  · rw [show takeWhile1 p s = .err by simp [takeWhile1, he]] at h
    exact PResult.noConfusion h
  · have h' : PResult.ok (s.dropWhile p) (s.takeWhile p) = PResult.ok r tk := by
      simpa [takeWhile1, he] using h
    injection h' with h1 _
    exact h1 ▸ List.dropWhile_suffix p

/-- The rest component of `matchSign` is a suffix of the input. -/
theorem matchSign_suffix (s : List Char) : (matchSign s).1 <:+ s := by
  cases s with
  | nil => exact List.suffix_rfl
  | cons c rest =>
      by_cases hc : c = '+' ∨ c = '-'
      · rw [show matchSign (c :: rest) = (rest, [c]) by simp [matchSign, hc]]
        exact List.suffix_cons c rest
      · rw [show matchSign (c :: rest) = (c :: rest, []) by simp [matchSign, hc]]

/-- The mantissa recognizer returns a suffix of its input. -/
theorem floatMantissa_suffix {s r tk : List Char}
    (h : floatMantissa s = .ok r tk) : r <:+ s := by
  unfold floatMantissa at h
  split at h
  · rename_i s1 d h1
    split at h
    · rename_i c s2
      split at h
      · injection h with h2 _
        subst h2
        exact (List.dropWhile_suffix _).trans
          ((List.suffix_cons c s2).trans (takeWhile1_suffix h1))
      · injection h with h2 _
        subst h2
        exact takeWhile1_suffix h1
    · injection h with h2 _
      subst h2
      exact takeWhile1_suffix h1
  · split at h
    · rename_i c s1 hfn
      split at h
      · split at h
        · rename_i s2 d h2
          injection h with h3 _
          subst h3
          exact (takeWhile1_suffix h2).trans (List.suffix_cons c s1)
        · exact PResult.noConfusion h
      · exact PResult.noConfusion h
    · exact PResult.noConfusion h

/-- The exponent recognizer returns a suffix of its input. -/
theorem floatExponent_suffix {s r tk : List Char}
    (h : floatExponent s = .ok r tk) : r <:+ s := by
  unfold floatExponent at h
  split at h
  · rename_i c s1
    split at h
    · split at h
      · rename_i s3 d h2
        injection h with h3 _
        subst h3
        exact ((takeWhile1_suffix h2).trans (matchSign_suffix s1)).trans
          (List.suffix_cons c s1)
      · exact PResult.noConfusion h
    · injection h with h1 _
      subst h1
      exact List.suffix_rfl
  · injection h with h1 _
    subst h1
    exact List.suffix_rfl

/-- `recognize_float` returns a suffix of its input. -/
theorem recognizeFloat_suffix {s r tk : List Char}
    (h : recognizeFloat s = .ok r tk) : r <:+ s := by
  unfold recognizeFloat at h
  split at h
  · rename_i s2 m h1
    split at h
    · rename_i s3 e h2
      injection h with h3 _
      subst h3
      exact (floatExponent_suffix h2).trans
        ((floatMantissa_suffix h1).trans (matchSign_suffix s))
    · exact PResult.noConfusion h
    · exact PResult.noConfusion h
  · exact PResult.noConfusion h

/-- `identifier` returns a suffix of its input. -/
theorem identifier_suffix {s r name : List Char}
    (h : identifier s = .ok r name) : r <:+ s := by
  unfold identifier at h
  split at h
  · rename_i s1 a h1
    split at h
    · rename_i s2 b h2
      injection h with h3 _
      subst h3
      exact (takeWhile1_suffix h2).trans (takeWhile1_suffix h1)
    · injection h with h3 _
      subst h3
      exact takeWhile1_suffix h1
  · exact PResult.noConfusion h

/-- A `ws(tag_no_case ...)`-shaped operator parser returns a suffix: the
common pattern of one no-case tag between two `multispace0`s. -/
theorem ws_tagNoCase_suffix {t s r : List Char} {op v : BinaryOp}
    (h : (match ptagNoCase t (multispace0 s) with
          | .ok r1 _ => PResult.ok (multispace0 r1) op
          | .err => .err
          | .fail => .fail) = PResult.ok r v) : r <:+ s := by
  split at h
  · rename_i r1 u h1
    injection h with h2 _
    subst h2
    exact ((multispace0_suffix r1).trans (ptagNoCase_suffix h1)).trans
      (multispace0_suffix s)
  · exact PResult.noConfusion h
  · exact PResult.noConfusion h

/-- `parse_or_op` returns a suffix of its input. -/
theorem parse_or_op_suffix {s r : List Char} {v : BinaryOp}
    (h : parse_or_op s = .ok r v) : r <:+ s := by
  unfold parse_or_op at h
  exact ws_tagNoCase_suffix h

/-- `parse_and_op` returns a suffix of its input. -/
theorem parse_and_op_suffix {s r : List Char} {v : BinaryOp}
    (h : parse_and_op s = .ok r v) : r <:+ s := by
  unfold parse_and_op at h
  exact ws_tagNoCase_suffix h

/-- `parse_comparison_op` returns a suffix of its input. -/
theorem parse_comparison_op_suffix {s r : List Char} {v : BinaryOp}
    (h : parse_comparison_op s = .ok r v) : r <:+ s := by
  simp only [parse_comparison_op] at h
  have hws : multispace0 s <:+ s := multispace0_suffix s
  split at h
  · rename_i r1 u h1
    injection h with h2 _
    subst h2
    exact ((multispace0_suffix r1).trans (ptag_suffix h1)).trans hws
  · split at h
    · rename_i r1 u h1
      injection h with h2 _
      subst h2
      exact ((multispace0_suffix r1).trans (ptag_suffix h1)).trans hws
    · split at h
      · rename_i r1 u h1
        injection h with h2 _
        subst h2
        exact ((multispace0_suffix r1).trans (ptag_suffix h1)).trans hws
      · split at h
        · rename_i r1 u h1
          injection h with h2 _
          subst h2
          exact ((multispace0_suffix r1).trans (ptag_suffix h1)).trans hws
        · split at h
          · rename_i r1 u h1
            injection h with h2 _
            subst h2
            exact ((multispace0_suffix r1).trans (pchar_suffix h1)).trans hws
          · split at h
            · rename_i r1 u h1
              injection h with h2 _
              subst h2
              exact ((multispace0_suffix r1).trans (pchar_suffix h1)).trans hws
            · exact PResult.noConfusion h

/-- `parse_additive_op` returns a suffix of its input. -/
theorem parse_additive_op_suffix {s r : List Char} {v : BinaryOp}
    (h : parse_additive_op s = .ok r v) : r <:+ s := by
  simp only [parse_additive_op] at h
  have hws : multispace0 s <:+ s := multispace0_suffix s
  split at h
  · rename_i r1 u h1
    injection h with h2 _
    subst h2
    exact ((multispace0_suffix r1).trans (pchar_suffix h1)).trans hws
  · split at h
    · rename_i r1 u h1
      injection h with h2 _
      subst h2
      exact ((multispace0_suffix r1).trans (pchar_suffix h1)).trans hws
    · exact PResult.noConfusion h

/-- `parse_multiplicative_op` returns a suffix of its input. -/
theorem parse_multiplicative_op_suffix {s r : List Char} {v : BinaryOp}
    (h : parse_multiplicative_op s = .ok r v) : r <:+ s := by
  simp only [parse_multiplicative_op] at h
  have hws : multispace0 s <:+ s := multispace0_suffix s
  split at h
  · rename_i r1 u h1
    injection h with h2 _
    subst h2
    exact ((multispace0_suffix r1).trans (pchar_suffix h1)).trans hws
  · split at h
    · rename_i r1 u h1
      injection h with h2 _
      subst h2
      exact ((multispace0_suffix r1).trans (pchar_suffix h1)).trans hws
    · exact PResult.noConfusion h

/-- `parse_boolean` returns a suffix of its input. -/
theorem parse_boolean_suffix {s r : List Char} {e : Expr}
    (h : parse_boolean s = .ok r e) : r <:+ s := by
  unfold parse_boolean at h
  split at h
  · rename_i r1 u h1
    injection h with h2 _
    subst h2
    exact ptagNoCase_suffix h1
  · split at h
    · rename_i r1 u h1
      injection h with h2 _
      subst h2
      exact ptagNoCase_suffix h1
    · exact PResult.noConfusion h

/-- `parse_number` returns a suffix of its input. -/
theorem parse_number_suffix {s r : List Char} {e : Expr}
    (h : parse_number s = .ok r e) : r <:+ s := by
  unfold parse_number at h
  split at h
  · rename_i r1 tk h1
    injection h with h2 _
    subst h2
    exact recognizeFloat_suffix h1
  · exact PResult.noConfusion h
  · exact PResult.noConfusion h

/-- `parse_variable` returns a suffix of its input. -/
theorem parse_variable_suffix {s r : List Char} {e : Expr}
    (h : parse_variable s = .ok r e) : r <:+ s := by
  unfold parse_variable at h
  split at h
  · rename_i r1 name h1
    injection h with h2 _
    subst h2
    exact identifier_suffix h1
  · exact PResult.noConfusion h
  · exact PResult.noConfusion h

/-- `parse_sep` returns a suffix of its input. -/
theorem parse_sep_suffix {s r : List Char} {v : Unit}
    (h : parse_sep s = .ok r v) : r <:+ s := by
  unfold parse_sep at h
  split at h
  · rename_i r1 u h1
    injection h with h2 _
    subst h2
    exact ((multispace0_suffix r1).trans (pchar_suffix h1)).trans
      (multispace0_suffix s)
  · exact PResult.noConfusion h
  · exact PResult.noConfusion h

/-- Every parser function of the grammar returns, on success, a suffix of
its input: nothing is ever prepended, so the remaining input always sits
at a well-defined byte offset of the original. -/
theorem parser_suffix : ∀ n : ℕ,
    (∀ s r e, parse_expr n s = .ok r e → r <:+ s) ∧
    (∀ s r e, parse_ternary n s = .ok r e → r <:+ s) ∧
    (∀ s r e, parse_or n s = .ok r e → r <:+ s) ∧
    (∀ s left r e, parse_or_chain n s left = .ok r e → r <:+ s) ∧
    (∀ s r e, parse_and n s = .ok r e → r <:+ s) ∧
    (∀ s left r e, parse_and_chain n s left = .ok r e → r <:+ s) ∧
    (∀ s r e, parse_comparison n s = .ok r e → r <:+ s) ∧
    (∀ s left r e, parse_comparison_chain n s left = .ok r e → r <:+ s) ∧
    (∀ s r e, parse_additive n s = .ok r e → r <:+ s) ∧
    (∀ s left r e, parse_additive_chain n s left = .ok r e → r <:+ s) ∧
    (∀ s r e, parse_multiplicative n s = .ok r e → r <:+ s) ∧
    (∀ s left r e, parse_multiplicative_chain n s left = .ok r e → r <:+ s) ∧
    (∀ s r e, parse_unary n s = .ok r e → r <:+ s) ∧
    (∀ s r e, parse_primary n s = .ok r e → r <:+ s) ∧
    (∀ s r e, parse_parenthesized n s = .ok r e → r <:+ s) ∧
    (∀ s r e, parse_function_call n s = .ok r e → r <:+ s) ∧
    (∀ s r l, parse_args n s = .ok r l → r <:+ s) ∧
    (∀ s acc r l, parse_args_loop n s acc = .ok r l → r <:+ s) := by
  intro n
  induction n with
  | zero =>
      refine ⟨fun s r e h => PResult.noConfusion h,
        fun s r e h => PResult.noConfusion h,
        fun s r e h => PResult.noConfusion h, ?_,
        fun s r e h => PResult.noConfusion h, ?_,
        fun s r e h => PResult.noConfusion h, ?_,
        fun s r e h => PResult.noConfusion h, ?_,
        fun s r e h => PResult.noConfusion h, ?_,
        fun s r e h => PResult.noConfusion h,
        fun s r e h => PResult.noConfusion h,
        fun s r e h => PResult.noConfusion h,
        fun s r e h => PResult.noConfusion h,
        fun s r l h => PResult.noConfusion h, ?_⟩ <;>
      · intro s left r e h
        injection h with h1 _
        exact h1 ▸ List.suffix_rfl
  | succ n ih =>
      obtain ⟨ihE, ihT, ihO, ihOC, ihA, ihAC, ihC, ihCC, ihAd, ihAdC,
        ihM, ihMC, ihU, ihP, ihPar, ihF, ihArgs, ihLoop⟩ := ih
      refine ⟨?_, ?_, ?_, ?_, ?_, ?_, ?_, ?_, ?_, ?_, ?_, ?_, ?_, ?_, ?_, ?_, ?_, ?_⟩
      -- parse_expr
      case _ => exact fun s r e h => ihT s r e h
      -- parse_ternary
      case _ =>
        intro s r e h
        simp only [parse_ternary] at h
        obtain ⟨s1, cond, h1, h⟩ := PResult.andThen_ok h
        have hs1 : s1 <:+ s := ihO _ _ _ h1
        split at h
        · rename_i s3 u h2
          obtain ⟨s5, te, h3, h⟩ := PResult.andThen_ok h
          obtain ⟨s7, u2, h4, h⟩ := PResult.andThen_ok h
          obtain ⟨s9, ee, h5, h⟩ := PResult.andThen_ok h
          injection h with h6 _
          subst h6
          exact (ihE _ _ _ h5).trans ((multispace0_suffix s7).trans
            ((pchar_suffix h4).trans ((multispace0_suffix s5).trans
            ((ihE _ _ _ h3).trans ((multispace0_suffix s3).trans
            ((pchar_suffix h2).trans ((multispace0_suffix s1).trans hs1)))))))
        · injection h with h2 _
          subst h2
          exact (multispace0_suffix s1).trans hs1
      -- parse_or
      case _ =>
        intro s r e h
        simp only [parse_or] at h
        obtain ⟨s1, left, h1, h2⟩ := PResult.andThen_ok h
        exact (ihOC _ _ _ _ h2).trans (ihA _ _ _ h1)
      -- parse_or_chain
      case _ =>
        intro s left r e h
        simp only [parse_or_chain] at h
        split at h
        · rename_i s1 op h1
          obtain ⟨s2, right, h2, h3⟩ := PResult.andThen_ok h
          exact ((ihOC _ _ _ _ h3).trans (ihA _ _ _ h2)).trans
            (parse_or_op_suffix h1)
        · injection h with h1 _
          exact h1 ▸ List.suffix_rfl
      -- parse_and
      case _ =>
        intro s r e h
        simp only [parse_and] at h
        obtain ⟨s1, left, h1, h2⟩ := PResult.andThen_ok h
        exact (ihAC _ _ _ _ h2).trans (ihC _ _ _ h1)
      -- parse_and_chain
      case _ =>
        intro s left r e h
        simp only [parse_and_chain] at h
        split at h
        · rename_i s1 op h1
          obtain ⟨s2, right, h2, h3⟩ := PResult.andThen_ok h
          exact ((ihAC _ _ _ _ h3).trans (ihC _ _ _ h2)).trans
            (parse_and_op_suffix h1)
        · injection h with h1 _
          exact h1 ▸ List.suffix_rfl
      -- parse_comparison
      case _ =>
        intro s r e h
        simp only [parse_comparison] at h
        obtain ⟨s1, left, h1, h2⟩ := PResult.andThen_ok h
        exact (ihCC _ _ _ _ h2).trans (ihAd _ _ _ h1)
      -- parse_comparison_chain
      case _ =>
        intro s left r e h
        simp only [parse_comparison_chain] at h
        split at h
        · rename_i s1 op h1
          obtain ⟨s2, right, h2, h3⟩ := PResult.andThen_ok h
          exact ((ihCC _ _ _ _ h3).trans (ihAd _ _ _ h2)).trans
            (parse_comparison_op_suffix h1)
        · injection h with h1 _
          exact h1 ▸ List.suffix_rfl
      -- parse_additive
      case _ =>
        intro s r e h
        simp only [parse_additive] at h
        obtain ⟨s1, left, h1, h2⟩ := PResult.andThen_ok h
        exact (ihAdC _ _ _ _ h2).trans (ihM _ _ _ h1)
      -- parse_additive_chain
      case _ =>
        intro s left r e h
        simp only [parse_additive_chain] at h
        split at h
        · rename_i s1 op h1
          obtain ⟨s2, right, h2, h3⟩ := PResult.andThen_ok h
          exact ((ihAdC _ _ _ _ h3).trans (ihM _ _ _ h2)).trans
            (parse_additive_op_suffix h1)
        · injection h with h1 _
          exact h1 ▸ List.suffix_rfl
      -- parse_multiplicative
      case _ =>
        intro s r e h
        simp only [parse_multiplicative] at h
        obtain ⟨s1, left, h1, h2⟩ := PResult.andThen_ok h
        exact (ihMC _ _ _ _ h2).trans (ihU _ _ _ h1)
      -- parse_multiplicative_chain
      case _ =>
        intro s left r e h
        simp only [parse_multiplicative_chain] at h
        split at h
        · rename_i s1 op h1
          obtain ⟨s2, right, h2, h3⟩ := PResult.andThen_ok h
          exact ((ihMC _ _ _ _ h3).trans (ihU _ _ _ h2)).trans
            (parse_multiplicative_op_suffix h1)
        · injection h with h1 _
          exact h1 ▸ List.suffix_rfl
      -- parse_unary
      case _ =>
        intro s r e h
        simp only [parse_unary] at h
        split at h
        · rename_i s2 u h1
          obtain ⟨r1, e1, h2, h3⟩ := PResult.andThen_ok h
          injection h3 with h4 _
          subst h4
          exact (ihU _ _ _ h2).trans ((multispace0_suffix s2).trans
            ((pchar_suffix h1).trans (multispace0_suffix s)))
        · split at h
          · rename_i s2 u h1
            obtain ⟨r1, e1, h2, h3⟩ := PResult.andThen_ok h
            injection h3 with h4 _
            subst h4
            exact (ihU _ _ _ h2).trans ((multispace0_suffix s2).trans
              ((ptagNoCase_suffix h1).trans (multispace0_suffix s)))
          · exact (ihP _ _ _ h).trans (multispace0_suffix s)
      -- parse_primary
      case _ =>
        intro s r e h
        simp only [parse_primary] at h
        split at h
        · rename_i r1 e1 h1
          injection h with h2 _
          subst h2
          exact (ihPar _ _ _ h1).trans (multispace0_suffix s)
        · exact PResult.noConfusion h
        · split at h
          · rename_i r1 e1 h1
            injection h with h2 _
            subst h2
            exact (parse_boolean_suffix h1).trans (multispace0_suffix s)
          · exact PResult.noConfusion h
          · split at h
            · rename_i r1 e1 h1
              injection h with h2 _
              subst h2
              exact (ihF _ _ _ h1).trans (multispace0_suffix s)
            · exact PResult.noConfusion h
            · split at h
              · rename_i r1 e1 h1
                injection h with h2 _
                subst h2
                exact (parse_number_suffix h1).trans (multispace0_suffix s)
              · exact PResult.noConfusion h
              · exact (parse_variable_suffix h).trans (multispace0_suffix s)
      -- parse_parenthesized
      case _ =>
        intro s r e h
        simp only [parse_parenthesized] at h
        obtain ⟨s1, u1, h1, h⟩ := PResult.andThen_ok h
        obtain ⟨s2, e1, h2, h⟩ := PResult.andThen_ok h
        obtain ⟨s3, u2, h3, h⟩ := PResult.andThen_ok h
        injection h with h4 _
        subst h4
        exact (pchar_suffix h3).trans ((multispace0_suffix s2).trans
          ((ihE _ _ _ h2).trans ((multispace0_suffix s1).trans
          (pchar_suffix h1))))
      -- parse_function_call
      case _ =>
        intro s r e h
        simp only [parse_function_call] at h
        obtain ⟨s1, name, h1, h⟩ := PResult.andThen_ok h
        obtain ⟨s2, u1, h2, h⟩ := PResult.andThen_ok h
        obtain ⟨s3, args, h3, h⟩ := PResult.andThen_ok h
        obtain ⟨s4, u2, h4, h⟩ := PResult.andThen_ok h
        injection h with h5 _
        subst h5
        exact (pchar_suffix h4).trans ((multispace0_suffix s3).trans
          ((ihArgs _ _ _ h3).trans ((multispace0_suffix s2).trans
          ((pchar_suffix h2).trans ((multispace0_suffix s1).trans
          (identifier_suffix h1))))))
      -- parse_args
      case _ =>
        intro s r l h
        simp only [parse_args] at h
        split at h
        · rename_i s1 e0 h1
          exact (ihLoop _ _ _ _ h).trans (ihE _ _ _ h1)
        · injection h with h1 _
          exact h1 ▸ List.suffix_rfl
        · exact PResult.noConfusion h
      -- parse_args_loop
      case _ =>
        intro s acc r l h
        simp only [parse_args_loop] at h
        split at h
        · rename_i s1 u h1
          split at h
          · exact PResult.noConfusion h
          · split at h
            · rename_i s2 e0 h2
              exact ((ihLoop _ _ _ _ h).trans (ihE _ _ _ h2)).trans
                (parse_sep_suffix h1)
            · injection h with h3 _
              exact h3 ▸ List.suffix_rfl
            · exact PResult.noConfusion h
        · exact PResult.noConfusion h
        · injection h with h3 _
          exact h3 ▸ List.suffix_rfl

/-- The first character surviving `dropWhile p` does not satisfy `p`. -/
theorem head?_dropWhile_not (p : Char → Bool) :
    ∀ (l : List Char) {c : Char}, (l.dropWhile p).head? = some c → p c = false := by
  intro l
  induction l with
  | nil => intro c h; simp at h
  | cons x xs ih =>
      intro c h
      by_cases hx : p x
      · rw [List.dropWhile_cons, if_pos hx] at h
        exact ih h
      · rw [List.dropWhile_cons, if_neg hx, List.head?_cons] at h
        injection h with h1
        subst h1
        simpa using hx

/-- A non-empty suffix ends in the same character as the whole list. -/
theorem reverse_head?_of_suffix {rem t : List Char} (h : rem <:+ t)
    (hne : rem ≠ []) : rem.reverse.head? = t.reverse.head? := by
  obtain ⟨u, rfl⟩ := h
  rw [List.reverse_append]
  cases hr : rem.reverse with
  | nil => exact absurd (by simpa using hr) hne
  | cons c w => simp

/-- Trailing-trim is the identity on a list whose last character does not
satisfy `p`. -/
theorem dropTrailing_eq_self {p : Char → Bool} {l : List Char} {c : Char}
    (h : l.reverse.head? = some c) (hc : p c = false) : dropTrailing p l = l := by
  unfold dropTrailing
  cases hr : l.reverse with
  | nil => rw [hr] at h; simp at h
  | cons x w =>
      rw [hr, List.head?_cons] at h
      injection h with h1
      subst h1
      rw [List.dropWhile_cons, if_neg (by simp [hc]), ← hr, List.reverse_reverse]

/-- The last character of a trimmed string is not whitespace. -/
theorem rustTrim_reverse_head (s : List Char) {c : Char}
    (h : (rustTrim s).reverse.head? = some c) : isRustWhitespace c = false := by
  unfold rustTrim dropTrailing at h
  rw [List.reverse_reverse] at h
  exact head?_dropWhile_not _ _ h

/-- For a non-blank suffix `rem` of a trimmed string, trimming `rem` only
strips leading whitespace, the result is still a suffix of the trimmed
string, and its first character is not whitespace. -/
theorem rustTrim_suffix_of_suffix {s rem : List Char}
    (hrem : rem <:+ rustTrim s) (hne : rustTrim rem ≠ []) :
    rustTrim rem = rem.dropWhile isRustWhitespace ∧
    rustTrim rem <:+ rustTrim s ∧
    ∀ c, (rustTrim rem).head? = some c → isRustWhitespace c = false := by
  have hrem_ne : rem ≠ [] := by rintro rfl; exact hne rfl
  have h1 : rem.reverse.head? = (rustTrim s).reverse.head? :=
    reverse_head?_of_suffix hrem hrem_ne
  cases hr : rem.reverse with
  | nil => exact absurd (by simpa using hr) hrem_ne
  | cons c w =>
      have hc : isRustWhitespace c = false := by
        apply rustTrim_reverse_head s
        rw [← h1, hr, List.head?_cons]
      have hd_ne : rem.dropWhile isRustWhitespace ≠ [] := by
        intro h0
        apply hne
        unfold rustTrim
        rw [h0]
        rfl
      have hd_suffix : rem.dropWhile isRustWhitespace <:+ rem :=
        List.dropWhile_suffix _
      have hd_head : (rem.dropWhile isRustWhitespace).reverse.head? =
          rem.reverse.head? := reverse_head?_of_suffix hd_suffix hd_ne
      have heq : rustTrim rem = rem.dropWhile isRustWhitespace := by
        unfold rustTrim
        exact dropTrailing_eq_self (by rw [hd_head, hr, List.head?_cons]) hc
      refine ⟨heq, ?_, ?_⟩
      · rw [heq]; exact hd_suffix.trans hrem
      · intro c' hh
        rw [heq] at hh
        exact head?_dropWhile_not _ _ hh

/-- Dropping `t.length - l.length` characters of `t` reaches the suffix
`l`: the length difference is the byte offset at which `l` starts. -/
theorem suffix_drop_eq {l t : List Char} (h : l <:+ t) :
    t.drop (t.length - l.length) = l := by
  obtain ⟨u, rfl⟩ := h
  rw [List.length_append, Nat.add_sub_cancel]
  exact List.drop_left u l

/-- Claim C8, counterexample: on input `"1 + @"` the first invalid
character `@` sits at byte offset 4 (the prefix parses fine: `"1 + 2"` is
accepted), yet the reported `ParseError` position is 0 — the
grammar-failure path of `parse` always reports position 0, not the offset
of the offending character. -/
theorem c8_counterexample :
    parse "1 + @" = .error (.parseError 0 "parse error") ∧
    (parse "1 + 2").isOk = true :=
  ⟨rfl, rfl⟩

/-- Claim C8, amended: `parse` fails with `EmptyExpression` exactly when
the trimmed input is empty; when the top-level grammar succeeds but
non-blank input remains, the `ParseError` position is the byte offset —
in the *trimmed* input — of the first unconsumed non-whitespace
character (the remainder equals the trimmed input dropped at that
offset); when a syntax rule cannot match, the position is always 0. -/
theorem c8_parse_error_positions (s : String) :
    (parse s = .error .emptyExpression ↔ rustTrim s.toList = []) ∧
    (rustTrim s.toList ≠ [] →
      ∀ rem e,
        parse_expr (parse_fuel (rustTrim s.toList)) (rustTrim s.toList) =
          .ok rem e →
        (rustTrim rem = [] → parse s = .ok e) ∧
        (rustTrim rem ≠ [] →
          parse s = .error (.parseError
              ((rustTrim s.toList).length - (rustTrim rem).length)
              ("unexpected characters: " ++ String.mk (rustTrim rem))) ∧
          (rustTrim s.toList).drop
              ((rustTrim s.toList).length - (rustTrim rem).length) =
            rustTrim rem ∧
          ∀ c, (rustTrim rem).head? = some c → isRustWhitespace c = false)) ∧
    (rustTrim s.toList ≠ [] →
      (∀ rem e,
        parse_expr (parse_fuel (rustTrim s.toList)) (rustTrim s.toList) ≠
          .ok rem e) →
      parse s = .error (.parseError 0 "parse error")) := by
  refine ⟨⟨?_, ?_⟩, ?_, ?_⟩
  · intro h
    by_contra hne
    have hempty : ¬((rustTrim s.toList).isEmpty = true) := by
      simpa [List.isEmpty_iff] using hne
    rw [parse.eq_def] at h
    simp only [if_neg hempty] at h
    split at h
    · split at h
      · exact Except.noConfusion h
      · injection h with h1
        exact FormulaError.noConfusion h1
    · injection h with h1
      exact FormulaError.noConfusion h1
  · intro h
    have hempty : (rustTrim s.toList).isEmpty = true := by
      simp only [List.isEmpty_iff]
      exact h
    rw [parse.eq_def]
    simp only [if_pos hempty]
  · intro hne rem e hok
    have hempty : ¬((rustTrim s.toList).isEmpty = true) := by
      simpa [List.isEmpty_iff] using hne
    have hmain : parse s =
        (if (rustTrim rem).isEmpty then Except.ok e
         else .error (.parseError
             ((rustTrim s.toList).length - (rustTrim rem).length)
             ("unexpected characters: " ++ String.mk (rustTrim rem)))) := by
      rw [parse.eq_def]
      simp only [if_neg hempty, hok]
    constructor
    · intro hre
      rw [hmain, if_pos (by simp [List.isEmpty_iff, hre])]
    · intro hre
      have hsuffix_rem : rem <:+ rustTrim s.toList :=
        (parser_suffix (parse_fuel (rustTrim s.toList))).1 _ rem e hok
      obtain ⟨heq, hsub, hheads⟩ := rustTrim_suffix_of_suffix hsuffix_rem hre
      refine ⟨?_, suffix_drop_eq hsub, hheads⟩
      rw [hmain, if_neg (by simp [List.isEmpty_iff, hre])]
  · intro hne hfail
    have hempty : ¬((rustTrim s.toList).isEmpty = true) := by
      simpa [List.isEmpty_iff] using hne
    rw [parse.eq_def]
    simp only [if_neg hempty]

/-- Witness for C8 (amended): on `"1 + 2 @"` the grammar consumes
`"1 + 2"` and the reported position is 6 — the byte offset of the
unconsumed `@` in the trimmed input. -/
theorem c8_witness : parse_error_position (parse "1 + 2 @") = some 6 := by
  have h := ((c8_parse_error_positions "1 + 2 @").2.1 (by decide) ['@']
      (Expr.binary .add (.number (ratOfFloatChars ['1']))
        (.number (ratOfFloatChars ['2']))) rfl).2 (by decide)
  obtain ⟨hmsg, _, _⟩ := h
  rw [hmsg]
  rfl

end Profundum
